import Mathlib

/-!
Shallow embedding of the twitter-parser normalization pipeline
(src/twitter_parser/core/parser.py, schemas/tweet_data.py, utils/constants.py).

Conventions of the embedding:
* Raw JSON records become Lean structures; a field accessed only after an
  `in`-test in the Python code becomes an `Option`, a field accessed
  unconditionally stays plain (the modeled input domain carries it).
* Code that can raise returns `Except PyErr`; the error constructor names the
  Python exception class raised at that point.
* The filesystem is an explicit input: a directory is the list of file names
  it holds; `os.path.isfile` is list membership and `glob(p ++ "*")` is a
  filter by `startsWith`, in listing order.
* A Python `set` is embedded as its insertion-ordered list of first
  occurrences; where the code iterates a set, the (unspecified, hash-driven)
  iteration order is an explicit enumeration parameter, constrained to be a
  permutation of the set elements.
* The network lookup service is an explicit oracle (guest token plus a
  per-batch response function).
-/

namespace TwitterParser

/-! Python string primitives used by the parser.  All of them are written as
structural recursions over the character list of the string, so that every
concrete run of the embedding evaluates by kernel reduction. -/

/-- Python str.split() with no argument: split on whitespace runs, no empty
parts.  The accumulator holds the current word reversed.  (Python also splits
on some rarer unicode spaces; the pipeline and all claims only involve ASCII
whitespace.) -/
def wsSplitAux : List Char → List Char → List String
  | [], w => if w.isEmpty then [] else [w.reverse.asString]
  | c :: rest, w =>
    if c.isWhitespace then
      if w.isEmpty then wsSplitAux rest []
      else w.reverse.asString :: wsSplitAux rest []
    else wsSplitAux rest (c :: w)

def pySplit (s : String) : List String :=
  wsSplitAux s.toList []

/-- The body-markdown accumulation loop `for word in text.split(): body += word + " "`. -/
def joinWords (ws : List String) : String :=
  ws.foldl (fun a w => a ++ w ++ " ") ""

/-- Python slicing s[1:len(s)-1]: drop the first and the last character. -/
def sliceInner (s : String) : String :=
  ((s.toList.drop 1).dropLast).asString

/-- Python str.split(sep) for a one-character separator, the only separator
shape the parser uses. -/
def splitOnChar (c : Char) : List Char → List (List Char)
  | [] => [[]]
  | x :: rest =>
    if x = c then [] :: splitOnChar c rest
    else
      match splitOnChar c rest with
      | [] => [[x]]
      | w :: ws => (x :: w) :: ws

def pySplitOn (s : String) (c : Char) : List String :=
  (splitOnChar c s.toList).map List.asString

/-- Python str.splitlines for bodies whose only line terminator is the newline
character (the only terminator this pipeline can introduce): a trailing
terminator produces no trailing empty part. -/
def pySplitlines (s : String) : List String :=
  let parts := pySplitOn s '\n'
  if parts.getLast? = some "" then parts.dropLast else parts

/-- Python sep.join(xs). -/
def pyJoin (sep : String) : List String → String
  | [] => ""
  | x :: rest => rest.foldl (fun a y => a ++ sep ++ y) x

def pyStartsWith (s pre : String) : Bool :=
  pre.toList.isPrefixOf s.toList

def pyEndsWith (s suf : String) : Bool :=
  suf.toList.isSuffixOf s.toList

/-- Python str.replace with a non-empty pattern: replace every occurrence,
scanning left to right without overlap.  The fuel starts at the length of the
scanned list and never runs out, since each step consumes at least one
character. -/
def pyReplaceAuxF (p : Char) (ps rep : List Char) : Nat → List Char → List Char
  | _, [] => []
  | 0, cs => cs
  | fuel + 1, c :: rest =>
    if (p :: ps).isPrefixOf (c :: rest) then
      rep ++ pyReplaceAuxF p ps rep fuel (rest.drop ps.length)
    else c :: pyReplaceAuxF p ps rep fuel rest

/-- Python str.replace; an empty pattern inserts the replacement at every
character boundary, as CPython does. -/
def pyReplace (s pat rep : String) : String :=
  match pat.toList with
  | [] =>
    rep ++ (s.toList.map (fun c => String.singleton c ++ rep)).foldl (· ++ ·) ""
  | p :: ps => (pyReplaceAuxF p ps rep.toList s.toList.length s.toList).asString

/-- Index (in characters) of the first occurrence of `pat` in `s`, as Python
str.index computes it.  Returns none when absent. -/
def strIndexOfAux (pl : List Char) : List Char → Nat → Option Nat
  | [], i => if pl.isPrefixOf [] then some i else none
  | c :: rest, i =>
    if pl.isPrefixOf (c :: rest) then some i else strIndexOfAux pl rest (i + 1)

def strIndexOf (s pat : String) : Option Nat :=
  strIndexOfAux pat.toList s.toList 0

/-- Python int() on the canonical decimal strings occurring in archive data
(optional minus sign followed by digits); anything else raises ValueError,
modeled as none. -/
def digitsVal (ds : List Char) : Nat :=
  ds.foldl (fun a c => a * 10 + (c.toNat - 48)) 0

def pyInt (s : String) : Option Int :=
  match s.toList with
  | [] => none
  | '-' :: ds =>
    if !ds.isEmpty && ds.all Char.isDigit then some (-(digitsVal ds : Int)) else none
  | ds => if ds.all Char.isDigit then some ((digitsVal ds : Int)) else none

/-! Constants from utils/constants.py (the ones the claims touch). -/

def UNKNOWN_HANDLE : String := "~unknown~handle~"

def USER_URL_TEMPLATE (id : String) : String :=
  "https://twitter.com/i/user/" ++ id

def TWEET_URL (username tweet_id_str : String) : String :=
  "https://twitter.com/" ++ username ++ "/status/" ++ tweet_id_str

def REPLAY_TO_TWEET (in_reply_to_screen_name in_reply_to_status_id : String) : String :=
  "https://twitter.com/" ++ in_reply_to_screen_name ++ "/status/" ++ in_reply_to_status_id

def BEST_QUALITY_URL (original_filename : String) : String :=
  "https://pbs.twimg.com/media/" ++ original_filename ++ ":orig"

def RT : String := "RT"

/-! Errors: the Python exception classes the modeled code can raise. -/

inductive PyErr where
  | indexError
  | keyError
  | valueError
  deriving DecidableEq, Repr

/-- Warnings: the logging calls of the media-resolution code, abstracted to
which warning was emitted. -/
inductive Warning where
  | noVariantUrl
  | missingLocalFile
  deriving DecidableEq, Repr

/-! The users dictionary (Identity Registry).  A Python dict keyed by user id;
insertion is last-write-wins, so the embedding prepends and lookup takes the
newest entry. -/

abbrev Registry := List (String × String)

def regInsert (r : Registry) (id handle : String) : Registry :=
  (id, handle) :: r

def regLookup (r : Registry) (id : String) : Option String :=
  (r.find? (fun p => p.1 = id)).map (·.2)

def regContains (r : Registry) (id : String) : Bool :=
  (regLookup r id).isSome

def regInsertAll (r : Registry) (regs : List (String × String)) : Registry :=
  regs.foldl (fun u p => regInsert u p.1 p.2) r

/-! Raw tweet records (the dict handed to _convert_tweet, already unwrapped
from the optional outer tweet key, which carries no other data). -/

structure UrlEnt where
  url : Option String := none
  expanded_url : Option String := none
  display_url : Option String := none
  indices : Option (List Nat) := none
  deriving DecidableEq, Repr

structure MediaEnt where
  url : String
  deriving DecidableEq, Repr

structure Variant where
  bitrate : Option Int := none
  url : String
  deriving DecidableEq, Repr

structure VideoInfo where
  variants : Option (List Variant) := none
  deriving DecidableEq, Repr

structure ExtMedia where
  url : Option String := none
  media_url : Option String := none
  video_info : Option VideoInfo := none
  deriving DecidableEq, Repr

structure Mention where
  id : Option String := none
  screen_name : Option (Option String) := none
  deriving DecidableEq, Repr

structure Entities where
  media : Option (List MediaEnt) := none
  urls : Option (List UrlEnt) := none
  user_mentions : Option (Option (List (Option Mention))) := none
  deriving DecidableEq, Repr

structure ExtEntities where
  media : Option (List ExtMedia) := none
  deriving DecidableEq, Repr

structure RawTweet where
  created_at : String
  full_text : String
  id_str : String
  entities : Option Entities := none
  extended_entities : Option ExtEntities := none
  in_reply_to_status_id : Option String := none
  in_reply_to_screen_name : Option (Option String) := none
  in_reply_to_user_id : Option String := none
  deriving DecidableEq, Repr

/-! Output schema (schemas/tweet_data.py). -/

inductive TweetType where
  | TWEET
  | RETWEET
  | REPLY
  deriving DecidableEq, Repr

structure Tweet where
  tweet_year : String
  tweet_type : TweetType
  retweeted_from : Option String := none
  replied_to_names : Option (List String) := none
  replying_to_tweet : Option String := none
  tweet_data : String
  tweeted_at : String
  tweet_url : String
  tweets_attached_media : Option String := none
  deriving DecidableEq, Repr

structure UserOut where
  user_handle : String
  user_profile_url : String
  deriving DecidableEq, Repr

structure DirectMessageOut where
  dm_from : String
  dm_to : String
  dm_data : String
  dm_at : String
  deriving DecidableEq, Repr

structure GroupDirectMessageOut where
  group_dm_from : String
  group_dm_data : String
  group_dm_at : String
  deriving DecidableEq, Repr

structure GroupDirectMessagesOut where
  group_name : Option String := none
  group_dms : List GroupDirectMessageOut
  group_participant : List String
  deriving DecidableEq, Repr

/-! Model of urllib.parse.urlparse restricted to the four fields the parser
reads (scheme, netloc, path, query).  Follows the CPython algorithm: optional
scheme split at the first colon when the head is a letter and every scheme
character is a letter, digit, plus, minus or dot; network location after a
double slash up to the next slash, question mark or hash; fragment split at
the first hash; query split at the first question mark; params split off the
last path segment at a semicolon.  A bracket mismatch in the network location
raises ValueError, modeled as none (the caller catches it and skips the
word). -/

structure ParsedUrl where
  scheme : String
  netloc : String
  path : String
  query : String
  deriving DecidableEq, Repr

def schemeChar (c : Char) : Bool :=
  c.isAlpha || c.isDigit || c == '+' || c == '-' || c == '.'

def splitParamsOff (path : List Char) : List Char :=
  if path.contains '/' then
    let r := path.length - 1 - ((path.reverse.findIdx? (· = '/')).getD 0)
    match (path.drop r).findIdx? (· = ';') with
    | some j => path.take (r + j)
    | none => path
  else
    match path.findIdx? (· = ';') with
    | some i => path.take i
    | none => path

def pyUrlparse (w : String) : Option ParsedUrl :=
  let cs := w.toList
  let (scheme, r1) :=
    match cs.findIdx? (· = ':') with
    | some i =>
      if 0 < i && (cs.headD ' ').isAlpha && (cs.take i).all schemeChar then
        (((cs.take i).map Char.toLower).asString, cs.drop (i + 1))
      else ("", cs)
    | none => ("", cs)
  let (netloc, r2) :=
    match r1 with
    | '/' :: '/' :: rest =>
      let d := (rest.findIdx? (fun c => c = '/' || c = '?' || c = '#')).getD rest.length
      (rest.take d, rest.drop d)
    | _ => ([], r1)
  if (netloc.contains '[' && !(netloc.contains ']'))
      || (netloc.contains ']' && !(netloc.contains '[')) then
    none
  else
    let r3 :=
      match r2.findIdx? (· = '#') with
      | some i => r2.take i
      | none => r2
    let (pathRaw, query) :=
      match r3.findIdx? (· = '?') with
      | some i => (r3.take i, r3.drop (i + 1))
      | none => (r3, [])
    some { scheme := scheme, netloc := netloc.asString,
           path := (splitParamsOff pathRaw).asString, query := query.asString }

/-! The anchored pattern match of line 488: the regular expression
`(@[0-9A-Za-z_]* )*` applied at the start of the body.  The character class
excludes the space that terminates each repetition, so the greedy match is
deterministic: repetitions are taken as long as an at sign, a maximal run of
word characters and a space follow. -/

def mentionChar (c : Char) : Bool :=
  c.isAlphanum || c == '_'

theorem dropWhile_length_le (p : Char → Bool) (l : List Char) :
    (l.dropWhile p).length ≤ l.length := by
  induction l with
  | nil => simp [List.dropWhile]
  | cons c cs ih =>
    by_cases h : p c
    · simp [List.dropWhile, h]
      omega
    · simp [List.dropWhile, h]

def msF : Nat → List Char → List Char × List Char
  | 0, cs => ([], cs)
  | _ + 1, [] => ([], [])
  | fuel + 1, c :: rest =>
    if c = '@' then
      let name := rest.takeWhile mentionChar
      match rest.dropWhile mentionChar with
      | d :: rest3 =>
        if d = ' ' then
          let p := msF fuel rest3
          ('@' :: (name ++ ' ' :: p.1), p.2)
        else ([], c :: rest)
      | [] => ([], c :: rest)
    else ([], c :: rest)

/-- The fuel argument of msF starts at the length of the list; each
repetition consumes at least two characters, so the fuel never runs out. -/
def mentionSplit (cs : List Char) : List Char × List Char :=
  msF cs.length cs

/-- The matched run, as the string the Python code calls replying_to. -/
def mentionRunStr (s : String) : String :=
  ((mentionSplit s.toList).1).asString

/-! Phases of TwitterDataParser._convert_tweet, in source order. -/

structure RTOut where
  ttype : TweetType
  retweeted_from : Option String
  body : String
  deriving DecidableEq, Repr

/-- Lines 433 to 452: default classification TWEET, switched to RETWEET when
the first whitespace token is literally RT; the handle token loses its first
and last character; the body drops the first two tokens.  An empty token list
raises IndexError at full_text.split()[0]; a lone RT raises IndexError at
full_text.split()[1]. -/
def rtPhase (tokens : List String) : Except PyErr RTOut :=
  match tokens with
  | [] => .error .indexError
  | t0 :: rest =>
    if t0 = RT then
      match rest with
      | [] => .error .indexError
      | t1 :: _ =>
        .ok ⟨.RETWEET, some (sliceInner t1), joinWords (tokens.drop 2)⟩
    else
      .ok ⟨.TWEET, none, joinWords tokens⟩

/-- The pretend url entity synthesized at lines 466 to 475. -/
def synthUrlEnt (fullText word : String) (u : ParsedUrl) : UrlEnt :=
  let netlocShort :=
    if pyStartsWith u.netloc "www." then (u.netloc.toList.drop 4).asString else u.netloc
  let pq := u.path ++ "?" ++ u.query
  let pathShort :=
    if pq.length < 15 then u.path else ((pq.toList.take 15).asString ++ "…")
  let i := (strIndexOf fullText word).getD 0
  { url := some word, expanded_url := some word,
    display_url := some (netlocShort ++ pathShort),
    indices := some [i, i + word.length] }

/-- Lines 458 to 468: does this token gain a pretend entity, and which one:
it must parse as a url (a ValueError is caught and skips the word), carry a
scheme and a network location, and not end in the horizontal ellipsis. -/
def synthForToken (fullText w : String) : Option UrlEnt :=
  match pyUrlparse w with
  | none => none
  | some u =>
    if u.scheme ≠ "" && u.netloc ≠ "" && !(pyEndsWith w "…") then
      some (synthUrlEnt fullText w u)
    else none

/-- One token of the backfill scan.  Appending with the urls key absent
raises KeyError, because dict.get supplies no default entry. -/
def backfillStep (fullText : String) (acc : Entities) (w : String) : Except PyErr Entities :=
  match synthForToken fullText w with
  | none => Except.ok acc
  | some ent =>
    match acc.urls with
    | none => Except.error PyErr.keyError
    | some us => Except.ok { acc with urls := some (us ++ [ent]) }

/-- Lines 456 to 475: legacy-link backfill.  Runs when entity metadata is
present, carries no media entity, and the urls list is absent or empty; every
qualifying body token gains a pretend entity. -/
def backfillPhase (fullText : String) (ents : Option Entities) : Except PyErr (Option Entities) :=
  match ents with
  | none => .ok none
  | some e =>
    if e.media.isNone && (e.urls.getD []).isEmpty then
      ((pySplit fullText).foldlM (backfillStep fullText) e).map some
    else .ok (some e)

/-- Lines 478 to 482: replace each short url with its expanded form,
everywhere it occurs in the body. -/
def expandPhase (ents : Option Entities) (body : String) : String :=
  match ents with
  | some e =>
    match e.urls with
    | some us =>
      us.foldl (fun b u =>
        match u.url, u.expanded_url with
        | some su, some eu => pyReplace b su eu
        | _, _ => b) body
    | none => body
  | none => body

structure ReplyOut where
  ttype : TweetType
  replied_to_names : Option (List String)
  replying_to_tweet : Option String
  body : String
  deriving DecidableEq, Repr

/-- Python str interpolation of a possibly null value. -/
def pyOptStr (o : Option String) : String := o.getD "None"

/-- Lines 486 to 504: the reply branch.  Runs iff the reply-target-status-id
key is present; strips the anchored leading mention run from the body; an
empty run means a self reply and the mention list defaults to the owner
handle.  names is never empty (the run contains an at sign, and so does the
owner fallback), so the Python names[0] cannot raise; the embedding uses
headD. -/
def replyPhase (userName : String) (tw : RawTweet) (ttype : TweetType) (body : String) :
    ReplyOut :=
  match tw.in_reply_to_status_id with
  | none => ⟨ttype, none, none, body⟩
  | some statusId =>
    let m := (mentionSplit body.toList).1.asString
    let replyingTo := if m ≠ "" then m else "@" ++ userName
    let body2 := if m ≠ "" then ((mentionSplit body.toList).2).asString else body
    let names := pySplit replyingTo
    let screenName :=
      match tw.in_reply_to_screen_name with
      | some v => pyOptStr v
      | none => names.headD ""
    ⟨.REPLY, some names, some (REPLAY_TO_TWEET screenName statusId), body2⟩

/-! Lines 507 to 571: media resolution.  The filesystem inputs are the list
of file names under the input media directory and the output media directory
path; copies are idempotent side effects with no influence on the produced
data, so the embedding does not track them.  The relative url from the
example output document to a media file is fixed by the directory layout. -/

def relUrlMedia (name : String) : String := "../../media/" ++ name

def pyBasename (s : String) : String := (pySplitOn s '/').getLastD ""

structure MediaAcc where
  markdown : String
  sources : List (String × String)
  warnings : List Warning
  deriving DecidableEq, Repr

/-- Lines 549 to 554: scan the variants, keeping the url of the largest
bitrate seen so far; the sentinel start value is minus one, below every real
bitrate, so a zero bitrate qualifies. -/
def bestVariantStep (acc : String × Int) (v : Variant) : String × Int :=
  match v.bitrate with
  | some b => if b > acc.2 then (v.url, b) else acc
  | none => acc

def selectBestVariant (vs : List Variant) : String × Int :=
  vs.foldl bestVariantStep ("", -1)

/-- Lines 535 to 564: the body of the fallback loop, for one matched file. -/
def fallbackFileStep (outDir : String) (m : ExtMedia) (a : MediaAcc) (f : String) : MediaAcc :=
  let a1 := { a with
    markdown := a.markdown ++ relUrlMedia f ++
      " > Your browser does not support the video tag" }
  match m.video_info with
  | some vi =>
    match vi.variants with
    | some vs =>
      let sel := selectBestVariant vs
      if sel.2 = -1 then
        { a1 with warnings := a1.warnings ++ [.noVariantUrl] }
      else
        { a1 with sources := a1.sources ++ [(outDir ++ "/" ++ f, sel.1)] }
    | none => a1
  | none => a1

/-- Lines 511 to 569: one entry of extended_entities.media.  Exact match
first; otherwise every file whose name starts with the tweet id is used, and
for each such file the best variant (when a variants list is carried) yields
one MediaSource, or a warning when no variant has a bitrate; with no matching
file at all the original url is kept inline and a warning names the missing
path.  Line 519 appends the empty string either way and is omitted. -/
def processOneExtMedia (tweetId : String) (inputMedia : List String) (outDir : String)
    (originalUrl : String) (acc : MediaAcc) (m : ExtMedia) : MediaAcc :=
  match m.url, m.media_url with
  | some _, some mediaUrl =>
    let originalFilename := pyBasename mediaUrl
    let archiveName := tweetId ++ "-" ++ originalFilename
    if inputMedia.contains archiveName then
      { acc with
        markdown := acc.markdown ++ relUrlMedia archiveName,
        sources := acc.sources ++
          [(outDir ++ "/" ++ archiveName, BEST_QUALITY_URL originalFilename)] }
    else
      let found := inputMedia.filter (fun f => pyStartsWith f tweetId)
      if found.isEmpty then
        { acc with
          markdown := acc.markdown ++ originalUrl,
          warnings := acc.warnings ++ [.missingLocalFile] }
      else
        found.foldl (fallbackFileStep outDir m) acc
  | _, _ => acc

/-- Lines 507 to 571: the whole media branch.  Active iff entity metadata,
its media list, extended entities and their media list are all present;
entities.media[0].url on an empty list raises IndexError; afterwards the now
redundant original url is stripped from the body and the markdown becomes the
attached media. -/
def mediaPhase (tweetId : String) (inputMedia : List String) (outDir : String)
    (ents : Option Entities) (ext : Option ExtEntities) (body : String) :
    Except PyErr (String × Option String × List (String × String) × List Warning) :=
  match ents, ext with
  | some e, some x =>
    match e.media, x.media with
    | some ml, some xl =>
      match ml with
      | [] => .error .indexError
      | m0 :: _ =>
        let acc := xl.foldl (processOneExtMedia tweetId inputMedia outDir m0.url)
          ⟨"", [], []⟩
        .ok (pyReplace body m0.url "", some acc.markdown, acc.sources, acc.warnings)
    | _, _ => .ok (body, none, [], [])
  | _, _ => .ok (body, none, [], [])

/-- Lines 577 to 591: opportunistic identity discovery.  The reply target
pair is registered when both keys are present and the screen name is not
null; each mention with both keys, a non-null handle and a non-negative id is
registered.  int() on a non-numeric id raises ValueError.  Returned as the
ordered list of (id, handle) registrations this tweet performs. -/
def replyTargetReg (tw : RawTweet) : Except PyErr (List (String × String)) :=
  match tw.in_reply_to_user_id, tw.in_reply_to_screen_name with
  | some rid, some (some h) =>
    match pyInt rid with
    | none => Except.error PyErr.valueError
    | some n => Except.ok (if 0 ≤ n then [(rid, h)] else [])
  | _, _ => Except.ok []

def mentionRegs (ents : Option Entities) : Except PyErr (List (String × String)) :=
  match ents with
  | some e =>
    match e.user_mentions with
    | some (some ms) =>
      ms.foldlM (fun (acc : List (String × String)) m? =>
        match m? with
        | some m =>
          match m.id, m.screen_name with
          | some mid, some sn =>
            match pyInt mid with
            | none => Except.error PyErr.valueError
            | some n =>
              if 0 ≤ n then
                match sn with
                | some h => Except.ok (acc ++ [(mid, h)])
                | none => Except.ok acc
              else Except.ok acc
          | _, _ => Except.ok acc
        | none => Except.ok acc) []
    | _ => Except.ok []
  | none => Except.ok []

def registerPhase (tw : RawTweet) (ents : Option Entities) :
    Except PyErr (List (String × String)) :=
  match replyTargetReg tw with
  | .error e => .error e
  | .ok regs1 =>
    match mentionRegs ents with
    | .error e => .error e
    | .ok regs2 => .ok (regs1 ++ regs2)

structure ConvOut where
  tweet : Tweet
  regs : List (String × String)
  mediaSources : List (String × String)
  warnings : List Warning
  deriving DecidableEq, Repr

/-- TwitterDataParser._convert_tweet (lines 422 to 598), phases in source
order.  The permalink of line 574 is synthesized from the owner handle and
the tweet id for every classification. -/
def convertTweet (userName : String) (inputMedia : List String) (outDir : String)
    (tw : RawTweet) : Except PyErr ConvOut :=
  match (pySplit tw.created_at).drop 5 with
  | [] => .error .indexError
  | tweetYear :: _ =>
    match rtPhase (pySplit tw.full_text) with
    | .error e => .error e
    | .ok rt =>
      match backfillPhase tw.full_text tw.entities with
      | .error e => .error e
      | .ok ents2 =>
        let body1 := expandPhase ents2 rt.body
        let rp := replyPhase userName tw rt.ttype body1
        match mediaPhase tw.id_str inputMedia outDir ents2 tw.extended_entities rp.body with
        | .error e => .error e
        | .ok (body2, attached, sources, warns) =>
          match registerPhase tw ents2 with
          | .error e => .error e
          | .ok regs =>
            .ok
              { tweet :=
                { tweet_year := tweetYear, tweet_type := rp.ttype,
                  retweeted_from := rt.retweeted_from,
                  replied_to_names := rp.replied_to_names,
                  replying_to_tweet := rp.replying_to_tweet,
                  tweet_data := body2, tweeted_at := tw.created_at,
                  tweet_url := TWEET_URL userName tw.id_str,
                  tweets_attached_media := attached },
                regs := regs, mediaSources := sources, warnings := warns }

/-- TwitterDataParser._get_tweets (lines 404 to 420): convert every tweet of
every shard in order, sharing the media source log; registrations are only
written by the loop, never read, so the per-tweet registration lists
concatenate. -/
def getTweets (userName : String) (inputMedia : List String) (outDir : String)
    (tws : List RawTweet) :
    Except PyErr (List Tweet × List (String × String) × List (String × String) × List Warning) :=
  tws.foldlM (fun acc tw => do
    let r ← convertTweet userName inputMedia outDir tw
    Except.ok (acc.1 ++ [r.tweet], acc.2.1 ++ r.regs, acc.2.2.1 ++ r.mediaSources,
      acc.2.2.2 ++ r.warnings))
    (([], [], [], []) : List Tweet × List (String × String) × List (String × String) × List Warning)

/-! Raw records of the follow and message source files. -/

/-- One entry of following.js or follower.js: the outer Option is the
presence of the following (resp. follower) key, the inner one the presence of
accountId. -/
abbrev FollowRecord := Option (Option String)

/-- Lines 264 to 292 and 613 to 616 and 629 to 632: collect every accountId
whose record carries both keys, in file order. -/
def collectAccountIds (items : List FollowRecord) : List String :=
  items.filterMap (fun r => r.bind id)

structure DmUrl where
  url : Option String := none
  expanded : Option String := none
  deriving DecidableEq, Repr

structure MsgCreate where
  senderId : Option String := none
  recipientId : Option String := none
  text : Option String := none
  createdAt : Option String := none
  urls : Option (List DmUrl) := none
  mediaUrls : Option (List String) := none
  id : String := ""
  deriving DecidableEq, Repr

structure JoinConv where
  initiatingUserId : String
  participantsSnapshot : List String
  deriving DecidableEq, Repr

structure PartJoin where
  initiatingUserId : String
  userIds : List String
  deriving DecidableEq, Repr

structure NameUpd where
  name : Option String := none
  deriving DecidableEq, Repr

/-- One event dict of a conversation; each Option is the presence of that
event key, dispatched in the if/elif order of the source. -/
structure ConvMsg where
  messageCreate : Option MsgCreate := none
  joinConversation : Option JoinConv := none
  participantsJoin : Option PartJoin := none
  conversationNameUpdate : Option NameUpd := none
  deriving DecidableEq, Repr

structure Conversation where
  conversationId : Option String := none
  messages : Option (List ConvMsg) := none
  deriving DecidableEq, Repr

/-- The outer Option is the presence of the dmConversation key. -/
abbrev ConvRecord := Option Conversation

/-- Python set.add on the insertion-ordered view of a set. -/
def setAdd (l : List String) (x : String) : List String :=
  if l.contains x then l else l ++ [x]

/-- Lines 303 to 309: one conversation of the pairwise-DM id collection. -/
def dmCollectStep (acc : List String) (conv : ConvRecord) : Except PyErr (List String) :=
  match conv with
  | some c =>
    match c.conversationId with
    | some cid =>
      match pySplitOn cid '-' with
      | [u1, u2] => Except.ok (setAdd (setAdd acc u1) u2)
      | _ => Except.error PyErr.valueError
    | none => Except.ok acc
  | none => Except.ok acc

/-- Lines 294 to 311: every pairwise conversation id is unpacked as
user1, user2 = conversation_id.split(hyphen); any number of parts other than
two raises ValueError. -/
def collectUserIdsFromDirectMessages (convs : List ConvRecord) :
    Except PyErr (List String) :=
  convs.foldlM dmCollectStep []

/-- Lines 329 to 349: fold the event stream of one group conversation into
the set of participant ids, in first-seen order.  messageCreate contributes
the sender id (a missing senderId key raises KeyError there);
joinConversation contributes its initiating user and the participant
snapshot; participantsJoin contributes its initiating user and the added
users; other events contribute nothing. -/
def groupIdStep (acc : List String) (msg : ConvMsg) : Except PyErr (List String) :=
  match msg.messageCreate with
  | some mc =>
    match mc.senderId with
    | some s => Except.ok (setAdd acc s)
    | none => Except.error PyErr.keyError
  | none =>
    match msg.joinConversation with
    | some jc =>
      Except.ok (jc.participantsSnapshot.foldl setAdd (setAdd acc jc.initiatingUserId))
    | none =>
      match msg.participantsJoin with
      | some pj =>
        Except.ok (pj.userIds.foldl setAdd (setAdd acc pj.initiatingUserId))
      | none => Except.ok acc

def findGroupParticipantIds (conv : ConvRecord) : Except PyErr (List String) :=
  match conv with
  | some c =>
    if c.conversationId.isSome then
      match c.messages with
      | some msgs => msgs.foldlM groupIdStep []
      | none => Except.ok []
    else Except.ok []
  | none => Except.ok []

/-- Lines 313 to 327: union of the participant ids over all group
conversations. -/
def collectUserIdsFromGroupDirectMessages (convs : List ConvRecord) :
    Except PyErr (List String) :=
  convs.foldlM (fun (acc : List String) conv => do
    let ps ← findGroupParticipantIds conv
    Except.ok (ps.foldl setAdd acc)) []

/-! The bulk lookup (lines 237 to 262 and 351 to 402).  The service is an
oracle: a guest token that may fail to be obtained (none swallows the
exception, covering both the network failure and the falsy-token raise) and a
per-batch response; a none batch response models a non-success status or a
network error.  Any such failure aborts retrieval before any registration is
performed. -/

structure LookupRecord where
  id_str : String
  screen_name : Option String
  deriving DecidableEq, Repr

structure LookupOracle where
  guestToken : Option String
  batch : List String → Option (List LookupRecord)

/-- Line 354: drop ids already known to the registry; the surviving list is
exactly what the lookup requests. -/
def lookupFiltered (users : Registry) (ids : List String) : List String :=
  ids.filter (fun i => !(regContains users i))

/-- Lines 383 to 402: batches of at most 100, requested in order; the
returned records are keyed by id_str in a dict.  The embedding keeps the
response list; a duplicate id_str across responses registers twice instead of
once below, with the identical final registry (last write wins in both). -/
def getTwitterUsersF (oracle : LookupOracle) : Nat → List String → Option (List LookupRecord)
  | _, [] => some []
  | 0, _ :: _ => none
  | fuel + 1, h :: t =>
    match oracle.batch ((h :: t).take 100) with
    | none => none
    | some recs =>
      match getTwitterUsersF oracle fuel ((h :: t).drop 100) with
      | none => none
      | some rest => some (recs ++ rest)

/-- The fuel starts at the length of the id list; each round consumes a
hundred ids, so the fuel never runs out. -/
def getTwitterUsers (oracle : LookupOracle) (ids : List String) :
    Option (List LookupRecord) :=
  getTwitterUsersF oracle ids.length ids

/-- Lines 351 to 369: skip the session entirely when nothing is unknown;
otherwise acquire the token and the batches, swallowing every failure; on
success register every record with a non-null screen name.  Returns the new
registry and the ordered registrations performed. -/
def lookupUsers (oracle : LookupOracle) (users : Registry) (userIds : List String) :
    Registry × List (String × String) :=
  let filtered := lookupFiltered users userIds
  if filtered.isEmpty then (users, [])
  else
    match oracle.guestToken with
    | none => (users, [])
    | some _ =>
      match getTwitterUsers oracle filtered with
      | none => (users, [])
      | some recs =>
        let regs := recs.filterMap (fun r => r.screen_name.map (fun h => (r.id_str, h)))
        (regInsertAll users regs, regs)

/-- Python list(set(xs)): the set of xs enumerated; membership is that of xs.
The CPython enumeration order is hash-driven; the embedding uses first
occurrence order, and no claim depends on this enumeration order (where an
order of set iteration is claim-relevant, it is an explicit parameter). -/
def pySetOfList (xs : List String) : List String := xs.foldl setAdd []

structure Archive where
  tweets : List RawTweet := []
  followings : List FollowRecord := []
  followers : List FollowRecord := []
  dms : List ConvRecord := []
  groupDms : List ConvRecord := []
  tweetMediaFiles : List String := []
  dmMediaFiles : List String := []
  groupMediaFiles : List String := []

/-- Lines 237 to 260: the candidate set construction.  The union of the four
enumerations, kept as in the source: following, direct message and group
direct message ids first, then the follower ids not already present. -/
def collectedUserIds (arch : Archive) : Except PyErr (List String) :=
  let followingIds := collectAccountIds arch.followings
  let followerIds := collectAccountIds arch.followers
  match collectUserIdsFromDirectMessages arch.dms with
  | .error e => .error e
  | .ok dmsUserIds =>
    match collectUserIdsFromGroupDirectMessages arch.groupDms with
    | .error e => .error e
    | .ok groupIds =>
      let withoutFollowers := pySetOfList (followingIds ++ dmsUserIds ++ groupIds)
      let onlyInFollowers :=
        pySetOfList (followerIds.filter (fun x => !(withoutFollowers.contains x)))
      .ok (pySetOfList (withoutFollowers ++ onlyInFollowers))

/-! Consumers (lines 606 to 817). -/

/-- Lines 606 to 621: follow edges; an unresolved id keeps the unknown
handle sentinel, and the profile url always comes from the raw id. -/
def getFollowingUsers (users : Registry) (items : List FollowRecord) : List UserOut :=
  (collectAccountIds items).map (fun i =>
    ⟨(regLookup users i).getD UNKNOWN_HANDLE, USER_URL_TEMPLATE i⟩)

/-- Lines 623 to 637: identical to the following consumer. -/
def getFollowersUsers (users : Registry) (items : List FollowRecord) : List UserOut :=
  (collectAccountIds items).map (fun i =>
    ⟨(regLookup users i).getD UNKNOWN_HANDLE, USER_URL_TEMPLATE i⟩)

/-- Lines 709 to 712, 738 to 742 and 803 to 804: the message-context
fallback; an unresolved id yields the profile url built from the raw id. -/
def resolveMsgHandle (users : Registry) (id : String) : String :=
  (regLookup users id).getD (USER_URL_TEMPLATE id)

/-- Lines 670 to 706: the pairwise direct message media step.  Requires
exactly one media url and the urls key; indexing urls[0] on an empty list
raises IndexError and a missing expanded key raises KeyError. -/
def dmMediaStep (mediaFiles : List String) (outDir : String) (mc : MsgCreate)
    (bodyMd : String) : Except PyErr (String × List Warning) :=
  match mc.mediaUrls, mc.urls with
  | some mus, some us =>
    if mus.length = 1 then
      match us with
      | [] => Except.error PyErr.indexError
      | u0 :: _ =>
        match u0.expanded with
        | none => Except.error PyErr.keyError
        | some expandedUrl =>
          let mediaHashAndType := pyBasename (mus.headD "")
          let archiveName := mc.id ++ "-" ++ mediaHashAndType
          let newUrl := outDir ++ "/" ++ archiveName
          if mediaFiles.contains archiveName then
            Except.ok (pyReplace bodyMd expandedUrl newUrl, [])
          else
            let found := mediaFiles.filter (fun f => pyStartsWith f mc.id)
            if found.isEmpty then
              Except.ok (bodyMd, [.missingLocalFile])
            else
              Except.ok (found.foldl (fun b f =>
                pyReplace b expandedUrl
                  (outDir ++ "/" ++ f ++ " Your browser does not support the video tag"))
                bodyMd, [])
    else Except.ok (bodyMd, [])
  | _, _ => Except.ok (bodyMd, [])

/-- Lines 639 to 720: fold the pairwise conversations; only messageCreate
events carrying sender, recipient, text and timestamp emit a message. -/
def getDirectMessages (users : Registry) (mediaFiles : List String) (outDir : String)
    (convs : List ConvRecord) :
    Except PyErr (List DirectMessageOut × List Warning) :=
  convs.foldlM (fun (acc : List DirectMessageOut × List Warning) conv =>
    match conv with
    | some c =>
      if c.conversationId.isSome then
        match c.messages with
        | some msgs =>
          msgs.foldlM (fun (a2 : List DirectMessageOut × List Warning) msg =>
            match msg.messageCreate with
            | some mc =>
              match mc.senderId, mc.recipientId, mc.text, mc.createdAt with
              | some fromId, some toId, some body0, some createdAt => do
                let body1 :=
                  match mc.urls with
                  | some us =>
                    if us.length > 0 then
                      us.foldl (fun b u =>
                        match u.url, u.expanded with
                        | some su, some eu => pyReplace b su eu
                        | _, _ => b) body0
                    else body0
                  | none => body0
                let bodyMd := joinWords (pySplit body1)
                let (bodyMd2, warns) ← dmMediaStep mediaFiles outDir mc bodyMd
                let toHandle := resolveMsgHandle users toId
                let fromHandle := resolveMsgHandle users fromId
                let bodyFinal := pyJoin "\n" (pySplitlines bodyMd2)
                Except.ok (a2.1 ++ [⟨fromHandle, toHandle, bodyFinal, createdAt⟩],
                  a2.2 ++ warns)
              | _, _, _, _ => Except.ok a2
            | none => Except.ok a2) acc
        | none => Except.ok acc
      else Except.ok acc
    | none => Except.ok acc) ([], [])

/-- Lines 763 to 800: the group media step; same shape as the pairwise one,
with the image markdown of line 779 and the group media directory. -/
def groupMediaStep (mediaFiles : List String) (outDir : String) (mc : MsgCreate)
    (bodyMd : String) : Except PyErr (String × List Warning) :=
  match mc.mediaUrls, mc.urls with
  | some mus, some us =>
    if mus.length = 1 then
      match us with
      | [] => Except.error PyErr.indexError
      | u0 :: _ =>
        match u0.expanded with
        | none => Except.error PyErr.keyError
        | some expandedUrl =>
          let mediaHashAndType := pyBasename (mus.headD "")
          let archiveName := mc.id ++ "-" ++ mediaHashAndType
          let newUrl := outDir ++ "/" ++ archiveName
          if mediaFiles.contains archiveName then
            Except.ok (pyReplace bodyMd expandedUrl ("\n![](" ++ newUrl ++ ")\n"), [])
          else
            let found := mediaFiles.filter (fun f => pyStartsWith f mc.id)
            if found.isEmpty then
              Except.ok (bodyMd, [.missingLocalFile])
            else
              Except.ok (found.foldl (fun b f =>
                pyReplace b expandedUrl
                  (outDir ++ "/" ++ f ++ " Your browser does not support the video tag"))
                bodyMd, [])
    else Except.ok (bodyMd, [])
  | _, _ => Except.ok (bodyMd, [])

/-- Lines 737 to 742: the participant ids of one group conversation, the set
iterated with the ambient enumeration and resolved through the registry with
the profile-url fallback.  The resolution happens only after
findGroupParticipantIds has folded the whole event stream. -/
def groupParticipants (enum : List String → List String) (users : Registry)
    (conv : ConvRecord) : Except PyErr (List String) :=
  match findGroupParticipantIds conv with
  | .error e => .error e
  | .ok pids => .ok ((enum pids).map (resolveMsgHandle users))

/-- Lines 722 to 817: fold the group conversations.  Per conversation the
participants are resolved first; then messageCreate events with sender, text
and timestamp emit messages, and conversationNameUpdate events carrying a
name overwrite the conversation name, the last one in stream order
winning. -/
def getGroupDirectMessages (enum : List String → List String) (users : Registry)
    (mediaFiles : List String) (outDir : String) (convs : List ConvRecord) :
    Except PyErr (List GroupDirectMessagesOut × List Warning) :=
  convs.foldlM (fun (acc : List GroupDirectMessagesOut × List Warning) conv =>
    match conv with
    | some c =>
      if c.conversationId.isSome then do
        let participants ← groupParticipants enum users conv
        let folded ←
          match c.messages with
          | some msgs =>
            msgs.foldlM
              (fun (st : Option String × List GroupDirectMessageOut × List Warning) msg =>
                match msg.messageCreate with
                | some mc =>
                  match mc.senderId, mc.text, mc.createdAt with
                  | some fromId, some body0, some createdAt => do
                    let body1 :=
                      match mc.urls with
                      | some us =>
                        us.foldl (fun b u =>
                          match u.url, u.expanded with
                          | some su, some eu => pyReplace b su eu
                          | _, _ => b) body0
                      | none => body0
                    let bodyMd := joinWords (pySplit body1)
                    let (bodyMd2, warns) ← groupMediaStep mediaFiles outDir mc bodyMd
                    let fromHandle := resolveMsgHandle users fromId
                    let dmData := pyJoin "\n>" (pySplitlines bodyMd2)
                    Except.ok (st.1, st.2.1 ++ [⟨fromHandle, dmData, createdAt⟩],
                      st.2.2 ++ warns)
                  | _, _, _ => Except.ok st
                | none =>
                  match msg.conversationNameUpdate with
                  | some nu =>
                    match nu.name with
                    | some nm => Except.ok (some nm, st.2.1, st.2.2)
                    | none => Except.ok st
                  | none => Except.ok st)
              ((none, [], []) : Option String × List GroupDirectMessageOut × List Warning)
          | none =>
            Except.ok ((none, [], []) : Option String × List GroupDirectMessageOut × List Warning)
        Except.ok (acc.1 ++ [⟨folded.1, folded.2.1, participants⟩], acc.2 ++ folded.2.2)
      else Except.ok acc
    | none => Except.ok acc) ([], [])

/-! The pipeline (TwitterDataParser.__init__, lines 123 to 150), with the
registry mutations recorded as an event trace in execution order. -/

inductive RegEvent where
  | opportunistic (id handle : String)
  | bulk (id handle : String)
  deriving DecidableEq, Repr

def RegEvent.isBulk : RegEvent → Bool
  | .bulk _ _ => true
  | _ => false

def RegEvent.isOpportunistic : RegEvent → Bool
  | .opportunistic _ _ => true
  | _ => false

def RegEvent.pair : RegEvent → String × String
  | .opportunistic i h => (i, h)
  | .bulk i h => (i, h)

structure NormalizedModel where
  tweets : List Tweet
  following : List UserOut
  followers : List UserOut
  dms : List DirectMessageOut
  groupDms : List GroupDirectMessagesOut
  deriving Repr

/-- TwitterDataParser.__init__ in source order: tweets are parsed first
(registering opportunistic discoveries into the empty registry), then the
bulk lookup runs over the four enumerations, then the consumers read the
registry; no later stage mutates it. -/
def runPipeline (userName : String) (oracle : LookupOracle)
    (enum : List String → List String) (outDir : String) (arch : Archive) :
    Except PyErr (NormalizedModel × List RegEvent) :=
  match getTweets userName arch.tweetMediaFiles outDir arch.tweets with
  | .error e => .error e
  | .ok (tweets, oppRegs, _mediaSources, _warns) =>
    let users1 := regInsertAll [] oppRegs
    match collectedUserIds arch with
    | .error e => .error e
    | .ok collected =>
      let looked := lookupUsers oracle users1 collected
      let users2 := looked.1
      let bulkRegs := looked.2
      let following := getFollowingUsers users2 arch.followings
      let followers := getFollowersUsers users2 arch.followers
      match getDirectMessages users2 arch.dmMediaFiles outDir arch.dms with
      | .error e => .error e
      | .ok (dms, _) =>
        match getGroupDirectMessages enum users2 arch.groupMediaFiles outDir arch.groupDms with
        | .error e => .error e
        | .ok (groups, _) =>
          .ok (⟨tweets, following, followers, dms, groups⟩,
            oppRegs.map (fun p => RegEvent.opportunistic p.1 p.2) ++
            bulkRegs.map (fun p => RegEvent.bulk p.1 p.2))

/-! Helper lemmas. -/

theorem dmCollectStep_error_eq (acc : List String) (conv : ConvRecord) (e : PyErr)
    (h : dmCollectStep acc conv = .error e) : e = .valueError := by
  unfold dmCollectStep at h
  repeat split at h
  all_goals simp_all

theorem dmFold_err (convs : List ConvRecord) (acc : List String)
    (h : ∃ conv : Conversation, some conv ∈ convs ∧ ∃ cid,
        conv.conversationId = some cid ∧ (pySplitOn cid '-').length ≠ 2) :
    List.foldlM dmCollectStep acc convs = .error .valueError := by
  induction convs generalizing acc with
  | nil =>
    obtain ⟨conv, hmem, _⟩ := h
    simp at hmem
  | cons x xs ih =>
    obtain ⟨conv, hmem, cid, hcid, hbad⟩ := h
    rw [List.foldlM_cons]
    rcases List.mem_cons.mp hmem with hx | hxs
    · obtain ⟨cidOpt, msgs⟩ := conv
      dsimp only at hcid
      subst hcid
      have hstep : dmCollectStep acc (some ⟨some cid, msgs⟩) = .error .valueError := by
        show (match pySplitOn cid '-' with
              | [u1, u2] => Except.ok (setAdd (setAdd acc u1) u2)
              | _ => Except.error PyErr.valueError) = Except.error PyErr.valueError
        cases hsp : pySplitOn cid '-' with
        | nil => rfl
        | cons a rest =>
          cases rest with
          | nil => rfl
          | cons b rest2 =>
            cases rest2 with
            | nil => exact absurd (by rw [hsp]; rfl) hbad
            | cons c rest3 => rfl
      rw [← hx, hstep]
      rfl
    · cases hstep : dmCollectStep acc x with
      | error e =>
        have he := dmCollectStep_error_eq _ _ _ hstep
        subst he
        rfl
      | ok acc2 =>
        show List.foldlM dmCollectStep acc2 xs = _
        exact ih acc2 ⟨conv, hxs, cid, hcid, hbad⟩

/-! C9. -/

/-- C9: post conversion is total only when the raw body has at least one
whitespace-delimited token: with a well-formed timestamp (at least six
whitespace fields, so that the year extraction succeeds) and an empty or
whitespace-only full_text, conversion raises IndexError at the RT inspection
of the first token, instead of producing a normalized post. -/
theorem C9_empty_body_conversion_raises (userName : String) (inputMedia : List String)
    (outDir : String) (tw : RawTweet)
    (hts : 6 ≤ (pySplit tw.created_at).length)
    (hft : pySplit tw.full_text = []) :
    convertTweet userName inputMedia outDir tw = .error .indexError := by
  have hlen : ((pySplit tw.created_at).drop 5).length = (pySplit tw.created_at).length - 5 :=
    List.length_drop 5 _
  cases hd : (pySplit tw.created_at).drop 5 with
  | nil =>
    rw [hd] at hlen
    simp at hlen
    omega
  | cons y ys =>
    unfold convertTweet
    rw [hd, hft]
    rfl

/-- C9 witness: a concrete whitespace-only post aborts with IndexError. -/
theorem C9_empty_body_conversion_raises_witness :
    6 ≤ (pySplit "Tue Mar 19 14:05:17 +0000 2019").length ∧
    pySplit "   " = [] ∧
    convertTweet "me" [] "OUT"
      { created_at := "Tue Mar 19 14:05:17 +0000 2019", full_text := "   ",
        id_str := "3" } = .error .indexError :=
  ⟨by decide, by decide,
    C9_empty_body_conversion_raises "me" [] "OUT" _ (by decide) (by decide)⟩

/-! C10. -/

/-- C10: the pairwise-DM id collection requires every conversation id to
split on the hyphen into exactly two parts: one conversation whose id does
not raises ValueError in the collector, which propagates through the
candidate-set construction and aborts the whole pipeline run (given that the
preceding tweet stage succeeded), rather than degrading. -/
theorem C10_dm_conversation_id_format_hard_precondition
    (convs : List ConvRecord) (conv : Conversation) (cid : String)
    (hmem : some conv ∈ convs) (hcid : conv.conversationId = some cid)
    (hbad : (pySplitOn cid '-').length ≠ 2) :
    collectUserIdsFromDirectMessages convs = .error .valueError ∧
    (∀ arch : Archive, arch.dms = convs →
      collectedUserIds arch = .error .valueError) ∧
    (∀ (userName : String) (oracle : LookupOracle) (enum : List String → List String)
        (outDir : String) (arch : Archive)
        (out : List Tweet × List (String × String) × List (String × String) × List Warning),
      arch.dms = convs →
      getTweets userName arch.tweetMediaFiles outDir arch.tweets = .ok out →
      runPipeline userName oracle enum outDir arch = .error .valueError) := by
  have h1 : collectUserIdsFromDirectMessages convs = .error .valueError :=
    dmFold_err convs [] ⟨conv, hmem, cid, hcid, hbad⟩
  have h2 : ∀ arch : Archive, arch.dms = convs →
      collectedUserIds arch = .error .valueError := by
    intro arch hdms
    unfold collectedUserIds
    rw [hdms, h1]
  refine ⟨h1, h2, ?_⟩
  intro userName oracle enum outDir arch out hdms hT
  obtain ⟨ts, regs, ms, ws⟩ := out
  unfold runPipeline
  rw [hT, h2 arch hdms]

/-- C10 witness: the concrete conversation id 123 has one part and aborts
collection, the candidate construction and the pipeline. -/
theorem C10_dm_conversation_id_format_hard_precondition_witness :
    ((some (Conversation.mk (some "123") none) : ConvRecord) ∈
        [(some (Conversation.mk (some "123") none) : ConvRecord)]) ∧
    (Conversation.mk (some "123") none).conversationId = some "123" ∧
    (pySplitOn "123" '-').length ≠ 2 ∧
    (collectUserIdsFromDirectMessages [some (Conversation.mk (some "123") none)] =
        .error .valueError ∧
      (∀ arch : Archive, arch.dms = [some (Conversation.mk (some "123") none)] →
        collectedUserIds arch = .error .valueError) ∧
      (∀ (userName : String) (oracle : LookupOracle) (enum : List String → List String)
          (outDir : String) (arch : Archive)
          (out : List Tweet × List (String × String) × List (String × String) × List Warning),
        arch.dms = [some (Conversation.mk (some "123") none)] →
        getTweets userName arch.tweetMediaFiles outDir arch.tweets = .ok out →
        runPipeline userName oracle enum outDir arch = .error .valueError)) :=
  ⟨List.mem_singleton.mpr rfl, rfl, by decide,
    C10_dm_conversation_id_format_hard_precondition _ _ "123"
      (List.mem_singleton.mpr rfl) rfl (by decide)⟩

/-! C6. -/

/-- The literal permalink template the claim states, word for word: owner
handle and post id with no status segment. -/
def claimPostPermalink (owner_handle post_id : String) : String :=
  "https://twitter.com/" ++ owner_handle ++ "/" ++ post_id

/-- C6 counterexample: the permalink the code synthesizes for the concrete
post 123 of owner me is https://twitter.com/me/status/123, which differs from
the claimed template instantiation https://twitter.com/me/123: the code
inserts a status segment the claim omits. -/
theorem C6_counterexample_permalink_template :
    (convertTweet "me" [] "OUT"
        { created_at := "Tue Mar 19 14:05:17 +0000 2019", full_text := "hello",
          id_str := "123" }).map (fun r => r.tweet.tweet_url) =
      .ok "https://twitter.com/me/status/123" ∧
    "https://twitter.com/me/status/123" ≠ claimPostPermalink "me" "123" :=
  ⟨by rfl, by decide⟩

/-- C6 amended: for every post, independent of its classification, the
synthesized permalink equals the template
https://twitter.com/{owner_handle}/status/{post_id} instantiated with the
archive owner handle and the post id. -/
theorem C6_amended_permalink (userName : String) (inputMedia : List String)
    (outDir : String) (tw : RawTweet) (out : ConvOut)
    (h : convertTweet userName inputMedia outDir tw = .ok out) :
    out.tweet.tweet_url = TWEET_URL userName tw.id_str := by
  unfold convertTweet at h
  cases hd : (pySplit tw.created_at).drop 5 with
  | nil => rw [hd] at h; exact Except.noConfusion h
  | cons y ys =>
  rw [hd] at h
  dsimp only at h
  cases hrt : rtPhase (pySplit tw.full_text) with
  | error e => rw [hrt] at h; exact Except.noConfusion h
  | ok rt =>
  rw [hrt] at h
  dsimp only at h
  cases hbf : backfillPhase tw.full_text tw.entities with
  | error e => rw [hbf] at h; exact Except.noConfusion h
  | ok ents2 =>
  rw [hbf] at h
  dsimp only at h
  cases hmp : mediaPhase tw.id_str inputMedia outDir ents2 tw.extended_entities
      (replyPhase userName tw rt.ttype (expandPhase ents2 rt.body)).body with
  | error e => rw [hmp] at h; exact Except.noConfusion h
  | ok quad =>
  obtain ⟨body2, attached, sources, warns⟩ := quad
  rw [hmp] at h
  dsimp only at h
  cases hrg : registerPhase tw ents2 with
  | error e => rw [hrg] at h; exact Except.noConfusion h
  | ok regs =>
  rw [hrg] at h
  dsimp only at h
  cases h
  rfl

def c6WitnessTweet : RawTweet :=
  { created_at := "Tue Mar 19 14:05:17 +0000 2019", full_text := "hello",
    id_str := "123" }

def c6WitnessOut : ConvOut :=
  { tweet :=
    { tweet_year := "2019", tweet_type := .TWEET, retweeted_from := none,
      replied_to_names := none, replying_to_tweet := none, tweet_data := "hello ",
      tweeted_at := "Tue Mar 19 14:05:17 +0000 2019",
      tweet_url := "https://twitter.com/me/status/123", tweets_attached_media := none },
    regs := [], mediaSources := [], warnings := [] }

/-- C6 amended witness at the concrete post 123. -/
theorem C6_amended_permalink_witness :
    convertTweet "me" [] "OUT" c6WitnessTweet = .ok c6WitnessOut ∧
    c6WitnessOut.tweet.tweet_url = TWEET_URL "me" "123" :=
  ⟨by rfl, C6_amended_permalink "me" [] "OUT" c6WitnessTweet c6WitnessOut (by rfl)⟩

/-! C8. -/

/-- C8: for an id not present in the registry, a follow-edge consumer
receives the stable unknown-handle sentinel, while pairwise-DM and group-DM
consumers receive the profile-url string built from the raw id.  The
follow-edge conjunct runs the following consumer on a record carrying the id;
the DM conjunct runs the pairwise builder on a message sent by the id; the
group conjunct resolves a participant set containing the id. -/
theorem C8_unresolved_id_fallbacks (users : Registry) (id : String)
    (mediaFiles : List String) (outDir : String)
    (h : regLookup users id = none) :
    getFollowingUsers users [some (some id)] =
      [⟨UNKNOWN_HANDLE, USER_URL_TEMPLATE id⟩] ∧
    resolveMsgHandle users id = USER_URL_TEMPLATE id ∧
    getDirectMessages users mediaFiles outDir
      [some ⟨some "c", some [⟨some ⟨some id, some "1", some "hi", some "t",
        none, none, ""⟩, none, none, none⟩]⟩] =
      .ok ([⟨USER_URL_TEMPLATE id, resolveMsgHandle users "1", "hi ", "t"⟩], []) ∧
    groupParticipants (fun xs => xs) users
      (some ⟨some "g", some [⟨some ⟨some id, none, some "hi", some "t",
        none, none, ""⟩, none, none, none⟩]⟩) =
      .ok [USER_URL_TEMPLATE id] := by
  have hres : resolveMsgHandle users id = USER_URL_TEMPLATE id := by
    unfold resolveMsgHandle
    rw [h]
    rfl
  refine ⟨?_, hres, ?_, ?_⟩
  · show [UserOut.mk ((regLookup users id).getD UNKNOWN_HANDLE) (USER_URL_TEMPLATE id)] =
      [UserOut.mk UNKNOWN_HANDLE (USER_URL_TEMPLATE id)]
    rw [h]
    rfl
  · show Except.ok
        ([DirectMessageOut.mk (resolveMsgHandle users id) (resolveMsgHandle users "1")
            "hi " "t"], ([] : List Warning)) =
      Except.ok
        ([DirectMessageOut.mk (USER_URL_TEMPLATE id) (resolveMsgHandle users "1")
            "hi " "t"], ([] : List Warning))
    rw [hres]
  · show Except.ok [resolveMsgHandle users id] =
      (Except.ok [USER_URL_TEMPLATE id] : Except PyErr (List String))
    rw [hres]

/-- C8 witness: the concrete unresolved id 999 against the empty registry
yields the sentinel for the follow edge and
https://twitter.com/i/user/999 in message contexts. -/
theorem C8_unresolved_id_fallbacks_witness :
    regLookup [] "999" = none ∧
    (getFollowingUsers [] [some (some "999")] =
        [⟨UNKNOWN_HANDLE, USER_URL_TEMPLATE "999"⟩] ∧
      resolveMsgHandle [] "999" = USER_URL_TEMPLATE "999" ∧
      getDirectMessages [] [] "OUT"
        [some ⟨some "c", some [⟨some ⟨some "999", some "1", some "hi", some "t",
          none, none, ""⟩, none, none, none⟩]⟩] =
        .ok ([⟨USER_URL_TEMPLATE "999", resolveMsgHandle [] "1", "hi ", "t"⟩], []) ∧
      groupParticipants (fun xs => xs) []
        (some ⟨some "g", some [⟨some ⟨some "999", none, some "hi", some "t",
          none, none, ""⟩, none, none, none⟩]⟩) =
        .ok [USER_URL_TEMPLATE "999"]) :=
  ⟨rfl, C8_unresolved_id_fallbacks [] "999" [] "OUT" rfl⟩

/-! C3 helper lemmas on the variant scan and the fallback loop. -/

theorem bestFold_mono (vs : List Variant) (acc : String × Int) :
    acc.2 ≤ (vs.foldl bestVariantStep acc).2 := by
  induction vs generalizing acc with
  | nil => exact le_refl _
  | cons v vs ih =>
    refine le_trans ?_ (ih (bestVariantStep acc v))
    unfold bestVariantStep
    cases v.bitrate with
    | none => exact le_refl _
    | some b =>
      dsimp only
      split
      · next hlt => exact le_of_lt hlt
      · exact le_refl _

theorem bestFold_ub (vs : List Variant) (acc : String × Int) :
    ∀ v ∈ vs, ∀ b, v.bitrate = some b → b ≤ (vs.foldl bestVariantStep acc).2 := by
  induction vs generalizing acc with
  | nil => intro v hv; simp at hv
  | cons w vs ih =>
    intro v hv b hb
    rcases List.mem_cons.mp hv with rfl | hvs
    · refine le_trans ?_ (bestFold_mono vs (bestVariantStep acc v))
      unfold bestVariantStep
      rw [hb]
      dsimp only
      split
      · exact le_refl _
      · next hnlt => omega
    · exact ih (bestVariantStep acc w) v hvs b hb

theorem bestFold_mem (vs : List Variant) (acc : String × Int) :
    vs.foldl bestVariantStep acc = acc ∨
      ∃ v ∈ vs, v.bitrate = some (vs.foldl bestVariantStep acc).2 ∧
        v.url = (vs.foldl bestVariantStep acc).1 := by
  induction vs generalizing acc with
  | nil => exact Or.inl rfl
  | cons w vs ih =>
    rw [List.foldl_cons]
    rcases ih (bestVariantStep acc w) with heq | ⟨v, hv, hb, hu⟩
    · rw [heq]
      unfold bestVariantStep
      cases hwb : w.bitrate with
      | none => exact Or.inl rfl
      | some b =>
        dsimp only
        split
        · exact Or.inr ⟨w, List.mem_cons_self _ _, by rw [hwb], rfl⟩
        · exact Or.inl rfl
    · exact Or.inr ⟨v, List.mem_cons_of_mem _ hv, hb, hu⟩

theorem bestFold_all_none (vs : List Variant) (acc : String × Int)
    (h : ∀ v ∈ vs, v.bitrate = none) : vs.foldl bestVariantStep acc = acc := by
  induction vs generalizing acc with
  | nil => rfl
  | cons w vs ih =>
    rw [List.foldl_cons]
    have hw : bestVariantStep acc w = acc := by
      unfold bestVariantStep
      rw [h w (List.mem_cons_self _ _)]
    rw [hw]
    exact ih acc (fun v hv => h v (List.mem_cons_of_mem _ hv))

theorem fallbackFold_spec (outDir : String) (m : ExtMedia) (vi : VideoInfo)
    (vs : List Variant) (hvi : m.video_info = some vi) (hvs : vi.variants = some vs)
    (found : List String) (acc : MediaAcc) :
    (found.foldl (fallbackFileStep outDir m) acc).sources =
      acc.sources ++ (if (selectBestVariant vs).2 = -1 then []
        else found.map (fun f => (outDir ++ "/" ++ f, (selectBestVariant vs).1))) ∧
    (found.foldl (fallbackFileStep outDir m) acc).warnings =
      acc.warnings ++ (if (selectBestVariant vs).2 = -1 then
        found.map (fun _ => Warning.noVariantUrl) else []) := by
  induction found generalizing acc with
  | nil => simp
  | cons f fs ih =>
    rw [List.foldl_cons]
    have hstep : fallbackFileStep outDir m acc f =
        if (selectBestVariant vs).2 = -1 then
          { acc with
            markdown := acc.markdown ++ relUrlMedia f ++
              " > Your browser does not support the video tag",
            warnings := acc.warnings ++ [Warning.noVariantUrl] }
        else
          { acc with
            markdown := acc.markdown ++ relUrlMedia f ++
              " > Your browser does not support the video tag",
            sources := acc.sources ++ [(outDir ++ "/" ++ f, (selectBestVariant vs).1)] } := by
      unfold fallbackFileStep
      rw [hvi]
      dsimp only
      rw [hvs]
    rw [hstep]
    by_cases hsel : (selectBestVariant vs).2 = -1
    · rw [if_pos hsel]
      obtain ⟨h1, h2⟩ := ih { acc with
        markdown := acc.markdown ++ relUrlMedia f ++
          " > Your browser does not support the video tag",
        warnings := acc.warnings ++ [Warning.noVariantUrl] }
      constructor <;> simp [h1, h2, hsel, List.append_assoc]
    · rw [if_neg hsel]
      obtain ⟨h1, h2⟩ := ih { acc with
        markdown := acc.markdown ++ relUrlMedia f ++
          " > Your browser does not support the video tag",
        sources := acc.sources ++ [(outDir ++ "/" ++ f, (selectBestVariant vs).1)] }
      constructor <;> simp [h1, h2, hsel, List.append_assoc]

/-! C3. -/

/-- C3 counterexample: one extended-media entry carrying a variants list with
one variant of bitrate one, no exact-name local file, and two local files
whose names start with the tweet id.  The fallback branch appends one
MediaSource per matched file, so this single entry appends two MediaSources,
not exactly one. -/
theorem C3_counterexample_two_media_sources_per_entry :
    processOneExtMedia "123" ["123-a.mp4", "123-b.mp4"] "OUT" "ou"
      (MediaAcc.mk "" [] [])
      (ExtMedia.mk (some "u") (some "http://x/v.mp4")
        (some (VideoInfo.mk (some [Variant.mk (some 1) "bu"])))) =
      MediaAcc.mk
        ("../../media/123-a.mp4 > Your browser does not support the video tag" ++
          "../../media/123-b.mp4 > Your browser does not support the video tag")
        [("OUT/123-a.mp4", "bu"), ("OUT/123-b.mp4", "bu")] [] ∧
    ([("OUT/123-a.mp4", "bu"), ("OUT/123-b.mp4", "bu")] : List (String × String)).length ≠ 1 :=
  ⟨by rfl, by decide⟩

/-- C3 amended: in the prefix-fallback branch, for every media entry carrying
a video-variants list whose bitrates are all non-negative, the variant with
the maximum integer bitrate is selected (bitrate zero is a valid value, the
sentinel minus one lies strictly below every real bitrate), and exactly one
MediaSource recording that variant url is appended per matched local file
(one per file the glob returns, not one per entry); if no variant carries a
bitrate, one warning per matched file is emitted and no MediaSource is
recorded. -/
theorem C3_amended_best_variant_per_matched_file (tweetId : String)
    (inputMedia : List String) (outDir originalUrl : String) (acc : MediaAcc)
    (m : ExtMedia) (u0 mu : String) (vi : VideoInfo) (vs : List Variant)
    (hu : m.url = some u0) (hmu : m.media_url = some mu)
    (hvi : m.video_info = some vi) (hvs : vi.variants = some vs)
    (hexact : inputMedia.contains (tweetId ++ "-" ++ pyBasename mu) = false)
    (hfound : (inputMedia.filter (fun f => pyStartsWith f tweetId)).isEmpty = false)
    (hb : ∀ v ∈ vs, ∀ b, v.bitrate = some b → 0 ≤ b) :
    ((∃ v ∈ vs, v.bitrate.isSome) →
      (selectBestVariant vs).2 ≠ -1 ∧
      (∃ v ∈ vs, v.bitrate = some (selectBestVariant vs).2 ∧
        v.url = (selectBestVariant vs).1) ∧
      (∀ v ∈ vs, ∀ b, v.bitrate = some b → b ≤ (selectBestVariant vs).2) ∧
      (processOneExtMedia tweetId inputMedia outDir originalUrl acc m).sources =
        acc.sources ++ (inputMedia.filter (fun f => pyStartsWith f tweetId)).map
          (fun f => (outDir ++ "/" ++ f, (selectBestVariant vs).1)) ∧
      (processOneExtMedia tweetId inputMedia outDir originalUrl acc m).warnings =
        acc.warnings) ∧
    ((∀ v ∈ vs, v.bitrate = none) →
      (processOneExtMedia tweetId inputMedia outDir originalUrl acc m).sources =
        acc.sources ∧
      (processOneExtMedia tweetId inputMedia outDir originalUrl acc m).warnings =
        acc.warnings ++ (inputMedia.filter (fun f => pyStartsWith f tweetId)).map
          (fun _ => Warning.noVariantUrl)) := by
  have hred : processOneExtMedia tweetId inputMedia outDir originalUrl acc m =
      (inputMedia.filter (fun f => pyStartsWith f tweetId)).foldl
        (fallbackFileStep outDir m) acc := by
    unfold processOneExtMedia
    rw [hu, hmu]
    dsimp only
    rw [hexact, hfound]
    simp
  obtain ⟨hspecS, hspecW⟩ := fallbackFold_spec outDir m vi vs hvi hvs
    (inputMedia.filter (fun f => pyStartsWith f tweetId)) acc
  constructor
  · rintro ⟨v0, hv0, hb0⟩
    obtain ⟨b0, hb0eq⟩ := Option.isSome_iff_exists.mp hb0
    have hub := bestFold_ub vs ("", -1)
    have hb0le : b0 ≤ (selectBestVariant vs).2 := hub v0 hv0 b0 hb0eq
    have hb0pos : 0 ≤ b0 := hb v0 hv0 b0 hb0eq
    have hne : (selectBestVariant vs).2 ≠ -1 := by omega
    refine ⟨hne, ?_, fun v hv b hvb => hub v hv b hvb, ?_, ?_⟩
    · rcases bestFold_mem vs ("", -1) with heq | hmem
      · exact absurd (by rw [selectBestVariant, heq]) hne
      · exact hmem
    · rw [hred, hspecS, if_neg hne]
    · rw [hred, hspecW, if_neg hne]
      simp
  · intro hnone
    have hsel : selectBestVariant vs = ("", -1) := bestFold_all_none vs ("", -1) hnone
    have hsel2 : (selectBestVariant vs).2 = -1 := by rw [hsel]
    refine ⟨?_, ?_⟩
    · rw [hred, hspecS, if_pos hsel2]
      simp
    · rw [hred, hspecW, if_pos hsel2]

/-- C3 amended witness: the spec example bitrates zero, three hundred twenty
thousand and one hundred eighty thousand with one matched file select the
middle variant url and append exactly one MediaSource. -/
theorem C3_amended_best_variant_per_matched_file_witness :
    ((∃ v ∈ [Variant.mk (some 0) "a", Variant.mk (some 320000) "b",
        Variant.mk (some 180000) "c"], v.bitrate.isSome) →
      (selectBestVariant [Variant.mk (some 0) "a", Variant.mk (some 320000) "b",
        Variant.mk (some 180000) "c"]).2 ≠ -1 ∧
      (∃ v ∈ [Variant.mk (some 0) "a", Variant.mk (some 320000) "b",
          Variant.mk (some 180000) "c"],
        v.bitrate = some (selectBestVariant [Variant.mk (some 0) "a",
          Variant.mk (some 320000) "b", Variant.mk (some 180000) "c"]).2 ∧
        v.url = (selectBestVariant [Variant.mk (some 0) "a",
          Variant.mk (some 320000) "b", Variant.mk (some 180000) "c"]).1) ∧
      (∀ v ∈ [Variant.mk (some 0) "a", Variant.mk (some 320000) "b",
          Variant.mk (some 180000) "c"], ∀ b, v.bitrate = some b →
        b ≤ (selectBestVariant [Variant.mk (some 0) "a", Variant.mk (some 320000) "b",
          Variant.mk (some 180000) "c"]).2) ∧
      (processOneExtMedia "123" ["123-a.mp4"] "OUT" "ou" (MediaAcc.mk "" [] [])
          (ExtMedia.mk (some "u") (some "http://x/v.mp4")
            (some (VideoInfo.mk (some [Variant.mk (some 0) "a",
              Variant.mk (some 320000) "b", Variant.mk (some 180000) "c"]))))).sources =
        (MediaAcc.mk "" [] []).sources ++
          (["123-a.mp4"].filter (fun f => pyStartsWith f "123")).map
            (fun f => ("OUT" ++ "/" ++ f,
              (selectBestVariant [Variant.mk (some 0) "a", Variant.mk (some 320000) "b",
                Variant.mk (some 180000) "c"]).1)) ∧
      (processOneExtMedia "123" ["123-a.mp4"] "OUT" "ou" (MediaAcc.mk "" [] [])
          (ExtMedia.mk (some "u") (some "http://x/v.mp4")
            (some (VideoInfo.mk (some [Variant.mk (some 0) "a",
              Variant.mk (some 320000) "b", Variant.mk (some 180000) "c"]))))).warnings =
        (MediaAcc.mk "" [] []).warnings) ∧
    ((∀ v ∈ [Variant.mk (some 0) "a", Variant.mk (some 320000) "b",
        Variant.mk (some 180000) "c"], v.bitrate = none) →
      (processOneExtMedia "123" ["123-a.mp4"] "OUT" "ou" (MediaAcc.mk "" [] [])
          (ExtMedia.mk (some "u") (some "http://x/v.mp4")
            (some (VideoInfo.mk (some [Variant.mk (some 0) "a",
              Variant.mk (some 320000) "b", Variant.mk (some 180000) "c"]))))).sources =
        (MediaAcc.mk "" [] []).sources ∧
      (processOneExtMedia "123" ["123-a.mp4"] "OUT" "ou" (MediaAcc.mk "" [] [])
          (ExtMedia.mk (some "u") (some "http://x/v.mp4")
            (some (VideoInfo.mk (some [Variant.mk (some 0) "a",
              Variant.mk (some 320000) "b", Variant.mk (some 180000) "c"]))))).warnings =
        (MediaAcc.mk "" [] []).warnings ++
          (["123-a.mp4"].filter (fun f => pyStartsWith f "123")).map
            (fun _ => Warning.noVariantUrl)) :=
  C3_amended_best_variant_per_matched_file "123" ["123-a.mp4"] "OUT" "ou"
    (MediaAcc.mk "" [] [])
    (ExtMedia.mk (some "u") (some "http://x/v.mp4")
      (some (VideoInfo.mk (some [Variant.mk (some 0) "a", Variant.mk (some 320000) "b",
        Variant.mk (some 180000) "c"]))))
    "u" "http://x/v.mp4"
    (VideoInfo.mk (some [Variant.mk (some 0) "a", Variant.mk (some 320000) "b",
      Variant.mk (some 180000) "c"]))
    [Variant.mk (some 0) "a", Variant.mk (some 320000) "b", Variant.mk (some 180000) "c"]
    rfl rfl rfl rfl (by decide) (by decide) (by decide)

/-! C7. -/

/-- The display form the claim describes, word for word: drop a leading www.
prefix from the host; if the length of path plus query (read with the joining
question mark, the reading closest to the code) is at least fifteen, keep the
first fifteen characters of it and append an ellipsis, otherwise keep it
unchanged. -/
def claimDisplayForm (u : ParsedUrl) : String :=
  (if pyStartsWith u.netloc "www." then (u.netloc.toList.drop 4).asString
    else u.netloc) ++
  (if 15 ≤ (u.path ++ "?" ++ u.query).length then
      ((u.path ++ "?" ++ u.query).toList.take 15).asString ++ "…"
    else u.path ++ "?" ++ u.query)

/-- The display form the code computes: as above, except that in the short
case only the path is kept and the query string is dropped. -/
def amendedDisplayForm (u : ParsedUrl) : String :=
  (if pyStartsWith u.netloc "www." then (u.netloc.toList.drop 4).asString
    else u.netloc) ++
  (if 15 ≤ (u.path ++ "?" ++ u.query).length then
      ((u.path ++ "?" ++ u.query).toList.take 15).asString ++ "…"
    else u.path)

theorem backfillPhase_some (fullText : String) (e : Entities) :
    backfillPhase fullText (some e) =
      if e.media.isNone && (e.urls.getD []).isEmpty then
        ((pySplit fullText).foldlM (backfillStep fullText) e).map some
      else .ok (some e) := rfl

theorem backfillFold_ok (fullText : String) (tokens : List String) (acc : Entities)
    (us : List UrlEnt) (hacc : acc.urls = some us) :
    tokens.foldlM (backfillStep fullText) acc =
      .ok { acc with urls := some (us ++ tokens.filterMap (synthForToken fullText)) } := by
  induction tokens generalizing acc us with
  | nil =>
    obtain ⟨am, au, aum⟩ := acc
    dsimp only at hacc
    subst hacc
    simp
    rfl
  | cons w ws ih =>
    rw [List.foldlM_cons]
    cases hsyn : synthForToken fullText w with
    | none =>
      have hstep : backfillStep fullText acc w = .ok acc := by
        unfold backfillStep
        rw [hsyn]
      rw [hstep]
      show ws.foldlM (backfillStep fullText) acc = _
      rw [ih acc us hacc, List.filterMap_cons, hsyn]
    | some ent =>
      have hstep : backfillStep fullText acc w =
          .ok { acc with urls := some (us ++ [ent]) } := by
        unfold backfillStep
        rw [hsyn, hacc]
      rw [hstep]
      show ws.foldlM (backfillStep fullText) { acc with urls := some (us ++ [ent]) } = _
      rw [ih { acc with urls := some (us ++ [ent]) } (us ++ [ent]) rfl,
        List.filterMap_cons, hsyn]
      simp

/-- C7 counterexample: the token http://a.com/p?q parses with path /p and
query q; path plus query is shorter than fifteen, so the claim says the
display form keeps it unchanged, a.com/p?q, but the code keeps only the path
and synthesizes a.com/p, dropping the query string. -/
theorem C7_counterexample_display_form :
    backfillPhase "check http://a.com/p?q out"
        (some (Entities.mk none (some []) none)) =
      .ok (some (Entities.mk none
        (some [UrlEnt.mk (some "http://a.com/p?q") (some "http://a.com/p?q")
          (some "a.com/p") (some [6, 22])]) none)) ∧
    pyUrlparse "http://a.com/p?q" = some (ParsedUrl.mk "http" "a.com" "/p" "q") ∧
    claimDisplayForm (ParsedUrl.mk "http" "a.com" "/p" "q") = "a.com/p?q" ∧
    ("a.com/p" : String) ≠ "a.com/p?q" :=
  ⟨by rfl, by rfl, by rfl, by decide⟩

/-- C7 amended: legacy-link backfill runs only when the post carries entity
metadata, no media entity, and an absent or empty explicit-links list.  With
the list present and empty, the urls list becomes exactly one pretend entity
per qualifying token in body order, where a token qualifies iff it parses as
an absolute url (non-empty scheme and host) and does not end in a truncation
ellipsis; the display form drops a leading www. prefix from the host and, if
the length of path plus joining question mark plus query is at least fifteen,
keeps the first fifteen characters of that and appends an ellipsis, otherwise
keeps only the path, the query dropped.  When the condition fails the
entities pass through unchanged. -/
theorem C7_amended_backfill (fullText : String) (e : Entities)
    (hm : e.media = none) (hu : e.urls = some []) :
    backfillPhase fullText (some e) =
      .ok (some { e with
        urls := some ((pySplit fullText).filterMap (synthForToken fullText)) }) ∧
    (∀ (w : String) (u : ParsedUrl), pyUrlparse w = some u →
      ((u.scheme ≠ "" && u.netloc ≠ "" && !(pyEndsWith w "…")) = true →
        synthForToken fullText w = some
          (UrlEnt.mk (some w) (some w) (some (amendedDisplayForm u))
            (some [(strIndexOf fullText w).getD 0,
              (strIndexOf fullText w).getD 0 + w.length]))) ∧
      ((u.scheme ≠ "" && u.netloc ≠ "" && !(pyEndsWith w "…")) = false →
        synthForToken fullText w = none)) ∧
    (∀ e2 : Entities, (e2.media.isNone && (e2.urls.getD []).isEmpty) = false →
      backfillPhase fullText (some e2) = .ok (some e2)) ∧
    backfillPhase fullText none = .ok none := by
  refine ⟨?_, ?_, ?_, rfl⟩
  · have hcond : (e.media.isNone && (e.urls.getD []).isEmpty) = true := by
      rw [hm, hu]
      rfl
    rw [backfillPhase_some, hcond]
    show Except.map some ((pySplit fullText).foldlM (backfillStep fullText) e) = _
    rw [backfillFold_ok fullText (pySplit fullText) e [] hu]
    rfl
  · intro w u hparse
    constructor
    · intro hq
      unfold synthForToken
      rw [hparse]
      dsimp only
      rw [if_pos hq]
      unfold synthUrlEnt amendedDisplayForm
      dsimp only
      by_cases hlen : (u.path ++ "?" ++ u.query).length < 15
      · have h2 : ¬ 15 ≤ (u.path ++ "?" ++ u.query).length := by omega
        rw [if_pos hlen, if_neg h2]
      · have h2 : 15 ≤ (u.path ++ "?" ++ u.query).length := by omega
        rw [if_neg hlen, if_pos h2]
    · intro hq
      unfold synthForToken
      rw [hparse]
      dsimp only
      rw [if_neg (by rw [hq]; exact Bool.false_ne_true)]
  · intro e2 hcond
    rw [backfillPhase_some, hcond]
    rfl

def c7WitnessEnt : Entities := Entities.mk none (some []) none

/-- C7 amended witness at a concrete body with one qualifying token, one
unparseable-looking token and one plain word. -/
theorem C7_amended_backfill_witness :
    backfillPhase "check http://a.com/p?q out" (some c7WitnessEnt) =
      .ok (some { c7WitnessEnt with
        urls := some ((pySplit "check http://a.com/p?q out").filterMap
          (synthForToken "check http://a.com/p?q out")) }) ∧
    (∀ (w : String) (u : ParsedUrl), pyUrlparse w = some u →
      ((u.scheme ≠ "" && u.netloc ≠ "" && !(pyEndsWith w "…")) = true →
        synthForToken "check http://a.com/p?q out" w = some
          (UrlEnt.mk (some w) (some w) (some (amendedDisplayForm u))
            (some [(strIndexOf "check http://a.com/p?q out" w).getD 0,
              (strIndexOf "check http://a.com/p?q out" w).getD 0 + w.length]))) ∧
      ((u.scheme ≠ "" && u.netloc ≠ "" && !(pyEndsWith w "…")) = false →
        synthForToken "check http://a.com/p?q out" w = none)) ∧
    (∀ e2 : Entities, (e2.media.isNone && (e2.urls.getD []).isEmpty) = false →
      backfillPhase "check http://a.com/p?q out" (some e2) = .ok (some e2)) ∧
    backfillPhase "check http://a.com/p?q out" none = .ok none :=
  C7_amended_backfill "check http://a.com/p?q out" c7WitnessEnt rfl rfl

/-! C4 helper lemmas. -/

/-- The leftover of a greedy mention-run match admits no further match: the
run stops either at a character that is not an at sign, or at a repetition
broken before its closing space, and in both cases a fresh anchored match at
the leftover is empty. -/
theorem msF_snd_no_match : ∀ (f : Nat) (cs : List Char), cs.length ≤ f →
    mentionSplit ((msF f cs).2) = ([], (msF f cs).2) := by
  intro f
  induction f with
  | zero =>
    intro cs hcs
    have : cs = [] := List.length_eq_zero.mp (Nat.le_zero.mp hcs)
    subst this
    rfl
  | succ f ih =>
    intro cs hcs
    cases cs with
    | nil => rfl
    | cons c rest =>
      by_cases hc : c = '@'
      · subst hc
        cases h3 : rest.dropWhile mentionChar with
        | nil =>
          have harm : msF (f + 1) ('@' :: rest) = ([], '@' :: rest) := by
            simp [msF, h3]
          rw [harm]
          unfold mentionSplit
          simp [msF, h3]
        | cons d0 ds =>
          by_cases hd0 : d0 = ' '
          · subst hd0
            have hred : msF (f + 1) ('@' :: rest) =
                ('@' :: (rest.takeWhile mentionChar ++ ' ' :: (msF f ds).1),
                  (msF f ds).2) := by
              simp [msF, h3]
            rw [hred]
            have hlen : ds.length ≤ f := by
              have h1 : (rest.dropWhile mentionChar).length ≤ rest.length :=
                dropWhile_length_le mentionChar rest
              rw [h3] at h1
              simp only [List.length_cons] at h1 hcs
              omega
            exact ih ds hlen
          · have harm : msF (f + 1) ('@' :: rest) = ([], '@' :: rest) := by
              simp [msF, h3, hd0]
            rw [harm]
            unfold mentionSplit
            simp [msF, h3, hd0]
      · have harm : msF (f + 1) (c :: rest) = ([], c :: rest) := by
          simp [msF, hc]
        rw [harm]
        unfold mentionSplit
        simp [msF, hc]

/-- The anchored mention-run match of the leftover of a mention-run match is
empty. -/
theorem mentionSplit_snd_no_match (cs : List Char) :
    mentionSplit ((mentionSplit cs).2) = ([], (mentionSplit cs).2) :=
  msF_snd_no_match cs.length cs (le_refl _)

theorem asString_empty_iff (l : List Char) : l.asString = "" ↔ l = [] := by
  constructor
  · intro h
    cases l with
    | nil => rfl
    | cons c cs =>
      have := congrArg String.toList h
      simp only [String.toList] at this
      exact absurd this (by simp [List.asString])
  · intro h
    rw [h]
    rfl

theorem tweetType_exactly_one (t : TweetType) :
    (t = .TWEET ∧ t ≠ .RETWEET ∧ t ≠ .REPLY) ∨
    (t ≠ .TWEET ∧ t = .RETWEET ∧ t ≠ .REPLY) ∨
    (t ≠ .TWEET ∧ t ≠ .RETWEET ∧ t = .REPLY) := by
  cases t
  · exact Or.inl (by simp)
  · exact Or.inr (Or.inl (by simp))
  · exact Or.inr (Or.inr (by simp))

theorem rtPhase_ok_cases (tokens : List String) (r : RTOut)
    (h : rtPhase tokens = .ok r) :
    (r.ttype = .TWEET ∧ r.retweeted_from = none) ∨
    (r.ttype = .RETWEET ∧ r.retweeted_from.isSome) := by
  unfold rtPhase at h
  cases tokens with
  | nil => exact Except.noConfusion h
  | cons t0 rest =>
    dsimp only at h
    by_cases ht : t0 = RT
    · rw [if_pos ht] at h
      cases rest with
      | nil => exact Except.noConfusion h
      | cons t1 more =>
        cases h
        exact Or.inr ⟨rfl, rfl⟩
    · rw [if_neg ht] at h
      cases h
      exact Or.inl ⟨rfl, rfl⟩

theorem replyPhase_none (userName : String) (tw : RawTweet) (ttype : TweetType)
    (body : String) (hs : tw.in_reply_to_status_id = none) :
    replyPhase userName tw ttype body = ⟨ttype, none, none, body⟩ := by
  unfold replyPhase
  rw [hs]

theorem replyPhase_some_reply (userName : String) (tw : RawTweet) (ttype : TweetType)
    (body : String) (sid : String) (hs : tw.in_reply_to_status_id = some sid) :
    (replyPhase userName tw ttype body).ttype = .REPLY ∧
    (replyPhase userName tw ttype body).replying_to_tweet.isSome ∧
    mentionRunStr (replyPhase userName tw ttype body).body = "" := by
  unfold replyPhase
  rw [hs]
  dsimp only
  refine ⟨rfl, rfl, ?_⟩
  by_cases hm : (mentionSplit body.toList).1.asString ≠ ""
  · rw [if_pos hm]
    unfold mentionRunStr
    have htl : ((mentionSplit body.toList).2.asString).toList = (mentionSplit body.toList).2 :=
      rfl
    rw [htl, mentionSplit_snd_no_match]
    rfl
  · rw [if_neg hm]
    push_neg at hm
    have hnil : (mentionSplit body.toList).1 = [] := (asString_empty_iff _).mp hm
    unfold mentionRunStr
    rw [hnil]
    rfl

theorem mediaPhase_inactive (tweetId : String) (inputMedia : List String)
    (outDir : String) (ents : Option Entities) (ext : Option ExtEntities)
    (body : String) (hx : ext.bind ExtEntities.media = none) :
    mediaPhase tweetId inputMedia outDir ents ext body = .ok (body, none, [], []) := by
  cases ext with
  | none => cases ents <;> rfl
  | some x =>
    have hxm : x.media = none := by simpa using hx
    cases ents with
    | none => rfl
    | some e =>
      unfold mediaPhase
      dsimp only
      rw [hxm]
      cases e.media <;> rfl

/-! C4. -/

def c4Tweet : RawTweet :=
  { created_at := "Tue Mar 19 14:05:17 +0000 2019"
    full_text := "@bob http://t@bob hi"
    id_str := "4"
    in_reply_to_status_id := some "55"
    entities := some { media := some [MediaEnt.mk "http://t"] }
    extended_entities := some { media := some [] } }

/-- C4 counterexample: a reply whose media-substitution step deletes the
media url from the body and thereby reintroduces a leading mention token.
The raw body is at-bob, a token starting with the media url and ending in
at-bob, and a word; the reply strip removes the leading at-bob, but the
deletion of the media url http://t from the remaining body leaves a body
that starts with the mention token at-bob again, so the post is classified
REPLY while its rewritten body carries a leading run of mention tokens. -/
theorem C4_counterexample_mention_run_reintroduced :
    (convertTweet "me" [] "OUT" c4Tweet).map
        (fun r => (r.tweet.tweet_type, r.tweet.tweet_data)) =
      .ok (.REPLY, "@bob hi ") ∧
    mentionRunStr "@bob hi " = "@bob " ∧
    mentionRunStr "@bob hi " ≠ "" :=
  ⟨by rfl, by rfl, by decide⟩

/-- C4 amended: every converted post has exactly one of the three kinds;
kind RETWEET implies the reposted-from handle is present; kind REPLY implies
the reply-target url is present; and for a REPLY whose media-substitution
step does not edit the body (no extended-entities media list is present),
the leading run of mention tokens is absent from the rewritten body.  (The
media step may delete the media url from the body and reintroduce a leading
mention token, as the counterexample shows.) -/
theorem C4_amended_classification (userName : String) (inputMedia : List String)
    (outDir : String) (tw : RawTweet) (out : ConvOut)
    (h : convertTweet userName inputMedia outDir tw = .ok out) :
    ((out.tweet.tweet_type = .TWEET ∧ out.tweet.tweet_type ≠ .RETWEET ∧
        out.tweet.tweet_type ≠ .REPLY) ∨
      (out.tweet.tweet_type ≠ .TWEET ∧ out.tweet.tweet_type = .RETWEET ∧
        out.tweet.tweet_type ≠ .REPLY) ∨
      (out.tweet.tweet_type ≠ .TWEET ∧ out.tweet.tweet_type ≠ .RETWEET ∧
        out.tweet.tweet_type = .REPLY)) ∧
    (out.tweet.tweet_type = .RETWEET → out.tweet.retweeted_from.isSome) ∧
    (out.tweet.tweet_type = .REPLY → out.tweet.replying_to_tweet.isSome) ∧
    (out.tweet.tweet_type = .REPLY →
      tw.extended_entities.bind ExtEntities.media = none →
      mentionRunStr out.tweet.tweet_data = "") := by
  unfold convertTweet at h
  cases hd : (pySplit tw.created_at).drop 5 with
  | nil => rw [hd] at h; exact Except.noConfusion h
  | cons y ys =>
  rw [hd] at h
  dsimp only at h
  cases hrt : rtPhase (pySplit tw.full_text) with
  | error e => rw [hrt] at h; exact Except.noConfusion h
  | ok rt =>
  rw [hrt] at h
  dsimp only at h
  cases hbf : backfillPhase tw.full_text tw.entities with
  | error e => rw [hbf] at h; exact Except.noConfusion h
  | ok ents2 =>
  rw [hbf] at h
  dsimp only at h
  cases hmp : mediaPhase tw.id_str inputMedia outDir ents2 tw.extended_entities
      (replyPhase userName tw rt.ttype (expandPhase ents2 rt.body)).body with
  | error e => rw [hmp] at h; exact Except.noConfusion h
  | ok quad =>
  obtain ⟨body2, attached, sources, warns⟩ := quad
  rw [hmp] at h
  dsimp only at h
  cases hrg : registerPhase tw ents2 with
  | error e => rw [hrg] at h; exact Except.noConfusion h
  | ok regs =>
  rw [hrg] at h
  dsimp only at h
  cases h
  dsimp only
  refine ⟨tweetType_exactly_one _, ?_, ?_, ?_⟩
  · intro hRe
    cases hs : tw.in_reply_to_status_id with
    | some sid =>
      have := (replyPhase_some_reply userName tw rt.ttype
        (expandPhase ents2 rt.body) sid hs).1
      rw [this] at hRe
      exact absurd hRe (by simp)
    | none =>
      rw [replyPhase_none userName tw rt.ttype (expandPhase ents2 rt.body) hs] at hRe
      dsimp only at hRe
      rcases rtPhase_ok_cases _ _ hrt with ⟨ht, _⟩ | ⟨_, hsome⟩
      · rw [ht] at hRe
        exact absurd hRe (by simp)
      · exact hsome
  · intro hRe
    cases hs : tw.in_reply_to_status_id with
    | some sid =>
      have := (replyPhase_some_reply userName tw rt.ttype
        (expandPhase ents2 rt.body) sid hs).2.1
      exact this
    | none =>
      rw [replyPhase_none userName tw rt.ttype (expandPhase ents2 rt.body) hs] at hRe
      dsimp only at hRe
      rcases rtPhase_ok_cases _ _ hrt with ⟨ht, _⟩ | ⟨ht, _⟩
      · rw [ht] at hRe
        exact absurd hRe (by simp)
      · rw [ht] at hRe
        exact absurd hRe (by simp)
  · intro hRe hxm
    have hmi := mediaPhase_inactive tw.id_str inputMedia outDir ents2 tw.extended_entities
      (replyPhase userName tw rt.ttype (expandPhase ents2 rt.body)).body hxm
    rw [hmp] at hmi
    have hbody : body2 = (replyPhase userName tw rt.ttype (expandPhase ents2 rt.body)).body := by
      have := Except.ok.inj hmi
      exact (Prod.mk.injEq _ _ _ _).mp this |>.1
    cases hs : tw.in_reply_to_status_id with
    | some sid =>
      rw [hbody]
      exact (replyPhase_some_reply userName tw rt.ttype
        (expandPhase ents2 rt.body) sid hs).2.2
    | none =>
      rw [replyPhase_none userName tw rt.ttype (expandPhase ents2 rt.body) hs] at hRe
      dsimp only at hRe
      rcases rtPhase_ok_cases _ _ hrt with ⟨ht, _⟩ | ⟨ht, _⟩
      · rw [ht] at hRe
        exact absurd hRe (by simp)
      · rw [ht] at hRe
        exact absurd hRe (by simp)

def c4WitnessTweet : RawTweet :=
  { created_at := "Wed Oct 10 20:19:24 +0000 2018"
    full_text := "@alice thanks"
    id_str := "77"
    in_reply_to_status_id := some "88"
    in_reply_to_screen_name := some (some "alice") }

def c4WitnessOut : ConvOut :=
  { tweet :=
    { tweet_year := "2018", tweet_type := .REPLY, retweeted_from := none,
      replied_to_names := some ["@alice"],
      replying_to_tweet := some "https://twitter.com/alice/status/88",
      tweet_data := "thanks ",
      tweeted_at := "Wed Oct 10 20:19:24 +0000 2018",
      tweet_url := "https://twitter.com/me/status/77",
      tweets_attached_media := none },
    regs := [], mediaSources := [], warnings := [] }

/-- C4 amended witness: a concrete reply with one leading mention. -/
theorem C4_amended_classification_witness :
    convertTweet "me" [] "OUT" c4WitnessTweet = .ok c4WitnessOut ∧
    (((c4WitnessOut.tweet.tweet_type = .TWEET ∧ c4WitnessOut.tweet.tweet_type ≠ .RETWEET ∧
        c4WitnessOut.tweet.tweet_type ≠ .REPLY) ∨
      (c4WitnessOut.tweet.tweet_type ≠ .TWEET ∧ c4WitnessOut.tweet.tweet_type = .RETWEET ∧
        c4WitnessOut.tweet.tweet_type ≠ .REPLY) ∨
      (c4WitnessOut.tweet.tweet_type ≠ .TWEET ∧ c4WitnessOut.tweet.tweet_type ≠ .RETWEET ∧
        c4WitnessOut.tweet.tweet_type = .REPLY)) ∧
    (c4WitnessOut.tweet.tweet_type = .RETWEET → c4WitnessOut.tweet.retweeted_from.isSome) ∧
    (c4WitnessOut.tweet.tweet_type = .REPLY → c4WitnessOut.tweet.replying_to_tweet.isSome) ∧
    (c4WitnessOut.tweet.tweet_type = .REPLY →
      c4WitnessTweet.extended_entities.bind ExtEntities.media = none →
      mentionRunStr c4WitnessOut.tweet.tweet_data = "")) :=
  ⟨by rfl, C4_amended_classification "me" [] "OUT" c4WitnessTweet c4WitnessOut (by rfl)⟩

/-! C1 helper lemmas. -/

theorem lookupUsers_fst (oracle : LookupOracle) (users : Registry) (ids : List String) :
    (lookupUsers oracle users ids).1 =
      regInsertAll users (lookupUsers oracle users ids).2 := by
  unfold lookupUsers
  dsimp only
  split
  · rfl
  · split
    · rfl
    · split
      · rfl
      · rfl

theorem regInsertAll_append (r : Registry) (a b : List (String × String)) :
    regInsertAll r (a ++ b) = regInsertAll (regInsertAll r a) b :=
  List.foldl_append _ _ _ _

theorem getAppendMemLeft {α : Type} (a b : List α) (k : Nat)
    (hk : k < (a ++ b).length) (hlt : k < a.length) : (a ++ b).get ⟨k, hk⟩ ∈ a := by
  rw [List.get_append _ hlt]
  exact List.get_mem _ _ _

theorem getAppendMemRight {α : Type} (a b : List α) (k : Nat)
    (hk : k < (a ++ b).length) (hge : a.length ≤ k) : (a ++ b).get ⟨k, hk⟩ ∈ b := by
  induction a generalizing k with
  | nil => exact List.get_mem _ _ _
  | cons x xs ih =>
    cases k with
    | zero => exact absurd hge (by simp)
    | succ n =>
      have hk2 : n < (xs ++ b).length := by
        simp only [List.cons_append, List.length_cons] at hk
        omega
      exact ih n hk2 (Nat.le_of_succ_le_succ hge)

/-! C1. -/

/-- The ordering property the claim states: every bulk-lookup registration
happens before any opportunistic registration. -/
def bulkPrecedesOpportunistic (tr : List RegEvent) : Prop :=
  ∀ i j, ∀ (hi : i < tr.length) (hj : j < tr.length),
    (tr.get ⟨i, hi⟩).isBulk = true → (tr.get ⟨j, hj⟩).isOpportunistic = true → i < j

def c1Arch : Archive :=
  { tweets := [{ created_at := "Tue Mar 19 14:05:17 +0000 2019"
                 full_text := "hello"
                 id_str := "10"
                 entities := some { user_mentions := some (some [some
                   { id := some "42", screen_name := some (some "alice") }]) } }]
    followings := [some (some "7")] }

def c1Oracle : LookupOracle :=
  { guestToken := some "g"
    batch := fun ids => some (ids.map (fun i =>
      { id_str := i, screen_name := some ("user" ++ i) })) }

/-- C1 counterexample: a pipeline run over an archive with one tweet carrying
a mention and one following edge, against a lookup service that resolves
every id.  The mutation trace is the opportunistic registration of id 42
first, then the bulk registration of id 7: the tweets are parsed (and the
registry opportunistically written) before the bulk lookup runs, so the bulk
registration does not precede the opportunistic one. -/
theorem C1_counterexample_bulk_after_opportunistic :
    (runPipeline "me" c1Oracle (fun xs => xs) "OUT" c1Arch).map (fun r => r.2) =
      .ok [RegEvent.opportunistic "42" "alice", RegEvent.bulk "7" "user7"] ∧
    ¬ bulkPrecedesOpportunistic
        [RegEvent.opportunistic "42" "alice", RegEvent.bulk "7" "user7"] := by
  refine ⟨by rfl, ?_⟩
  intro hb
  have := hb 1 0 (by decide) (by decide) (by decide) (by decide)
  omega

/-- C1 amended: in every successful pipeline run the registry mutation trace
consists of the opportunistic registrations made while normalizing posts
first, followed by the bulk-lookup registrations: every opportunistic
registration happens before any bulk registration (the reverse of the
claimed order).  The registry the consumers read is the left fold of the
whole trace over the empty registry, so it is fully populated before the
follow-edge consumers run. -/
theorem C1_amended_opportunistic_before_bulk (userName : String)
    (oracle : LookupOracle) (enum : List String → List String) (outDir : String)
    (arch : Archive) (m : NormalizedModel) (tr : List RegEvent)
    (h : runPipeline userName oracle enum outDir arch = .ok (m, tr)) :
    (∀ i j, ∀ (hi : i < tr.length) (hj : j < tr.length),
      (tr.get ⟨i, hi⟩).isOpportunistic = true → (tr.get ⟨j, hj⟩).isBulk = true →
      i < j) ∧
    m.following = getFollowingUsers (regInsertAll [] (tr.map RegEvent.pair))
      arch.followings ∧
    m.followers = getFollowersUsers (regInsertAll [] (tr.map RegEvent.pair))
      arch.followers := by
  unfold runPipeline at h
  cases hT : getTweets userName arch.tweetMediaFiles outDir arch.tweets with
  | error e => rw [hT] at h; exact Except.noConfusion h
  | ok quad =>
  obtain ⟨tweets, oppRegs, ms, ws⟩ := quad
  rw [hT] at h
  dsimp only at h
  cases hC : collectedUserIds arch with
  | error e => rw [hC] at h; exact Except.noConfusion h
  | ok collected =>
  rw [hC] at h
  dsimp only at h
  cases hD : getDirectMessages (lookupUsers oracle (regInsertAll [] oppRegs) collected).1
      arch.dmMediaFiles outDir arch.dms with
  | error e => rw [hD] at h; exact Except.noConfusion h
  | ok dpair =>
  obtain ⟨dms, dw⟩ := dpair
  rw [hD] at h
  dsimp only at h
  cases hG : getGroupDirectMessages enum
      (lookupUsers oracle (regInsertAll [] oppRegs) collected).1
      arch.groupMediaFiles outDir arch.groupDms with
  | error e => rw [hG] at h; exact Except.noConfusion h
  | ok gpair =>
  obtain ⟨groups, gw⟩ := gpair
  rw [hG] at h
  dsimp only at h
  cases h
  dsimp only
  have hmap : ((oppRegs.map (fun p => RegEvent.opportunistic p.1 p.2) ++
      (lookupUsers oracle (regInsertAll [] oppRegs) collected).2.map
        (fun p => RegEvent.bulk p.1 p.2)).map RegEvent.pair) =
      oppRegs ++ (lookupUsers oracle (regInsertAll [] oppRegs) collected).2 := by
    have h1 : (RegEvent.pair ∘ fun p : String × String =>
        RegEvent.opportunistic p.1 p.2) = id := funext fun p => rfl
    have h2 : (RegEvent.pair ∘ fun p : String × String =>
        RegEvent.bulk p.1 p.2) = id := funext fun p => rfl
    rw [List.map_append, List.map_map, List.map_map, h1, h2, List.map_id, List.map_id]
  refine ⟨?_, ?_, ?_⟩
  · intro i j hi hj hio hjb
    have hjge : (oppRegs.map (fun p => RegEvent.opportunistic p.1 p.2)).length ≤ j := by
      by_contra hlt
      push_neg at hlt
      have hmem := getAppendMemLeft _ _ j hj hlt
      obtain ⟨p, _, hp⟩ := List.mem_map.mp hmem
      rw [← hp] at hjb
      simp [RegEvent.isBulk] at hjb
    have hilt : i < (oppRegs.map (fun p => RegEvent.opportunistic p.1 p.2)).length := by
      by_contra hge
      push_neg at hge
      have hmem := getAppendMemRight _ _ i hi hge
      obtain ⟨p, _, hp⟩ := List.mem_map.mp hmem
      rw [← hp] at hio
      simp [RegEvent.isOpportunistic] at hio
    omega
  · rw [hmap, regInsertAll_append, ← lookupUsers_fst]
  · rw [hmap, regInsertAll_append, ← lookupUsers_fst]

/-- C1 amended witness: the empty archive runs with an empty trace and empty
consumers. -/
theorem C1_amended_opportunistic_before_bulk_witness :
    runPipeline "me" (LookupOracle.mk none (fun _ => none)) (fun xs => xs) "OUT" {} =
      .ok (NormalizedModel.mk [] [] [] [] [], []) ∧
    ((∀ i j, ∀ (hi : i < ([] : List RegEvent).length)
        (hj : j < ([] : List RegEvent).length),
      (([] : List RegEvent).get ⟨i, hi⟩).isOpportunistic = true →
      (([] : List RegEvent).get ⟨j, hj⟩).isBulk = true → i < j) ∧
    (NormalizedModel.mk [] [] [] [] []).following =
      getFollowingUsers (regInsertAll [] (([] : List RegEvent).map RegEvent.pair))
        (Archive.mk [] [] [] [] [] [] [] []).followings ∧
    (NormalizedModel.mk [] [] [] [] []).followers =
      getFollowersUsers (regInsertAll [] (([] : List RegEvent).map RegEvent.pair))
        (Archive.mk [] [] [] [] [] [] [] []).followers) :=
  ⟨by rfl, C1_amended_opportunistic_before_bulk "me" (LookupOracle.mk none (fun _ => none))
    (fun xs => xs) "OUT" (Archive.mk [] [] [] [] [] [] [] [])
    (NormalizedModel.mk [] [] [] [] []) [] (by rfl)⟩

/-! C2 helper lemmas. -/

theorem contains_iff_mem (l : List String) (x : String) : l.contains x = true ↔ x ∈ l := by
  unfold List.contains
  exact List.elem_iff

theorem setAdd_mem (l : List String) (y x : String) : x ∈ setAdd l y ↔ x ∈ l ∨ x = y := by
  unfold setAdd
  split
  · next hcon =>
    constructor
    · exact Or.inl
    · rintro (hx | rfl)
      · exact hx
      · exact (contains_iff_mem l x).mp hcon
  · simp

theorem foldl_setAdd_mem (l : List String) (acc : List String) (x : String) :
    x ∈ l.foldl setAdd acc ↔ x ∈ acc ∨ x ∈ l := by
  induction l generalizing acc with
  | nil => simp
  | cons y ys ih =>
    rw [List.foldl_cons, ih (setAdd acc y), setAdd_mem]
    simp only [List.mem_cons]
    tauto

theorem pySetOfList_mem (l : List String) (x : String) :
    x ∈ pySetOfList l ↔ x ∈ l := by
  unfold pySetOfList
  rw [foldl_setAdd_mem]
  simp

/-! C2. -/

/-- C2: the list of ids the bulk lookup requests (the filter at line 354 of
the collected candidate list) holds exactly the ids of the union of the four
source collections that the registry does not already know at lookup time.
The registry parameter is arbitrary; the pipeline instantiates it with the
registry as left by tweet normalization. -/
theorem C2_candidate_set_is_union_minus_known (arch : Archive) (users : Registry)
    (dmIds gIds collected : List String)
    (hdm : collectUserIdsFromDirectMessages arch.dms = .ok dmIds)
    (hg : collectUserIdsFromGroupDirectMessages arch.groupDms = .ok gIds)
    (hc : collectedUserIds arch = .ok collected)
    (id : String) :
    id ∈ lookupFiltered users collected ↔
      ((id ∈ collectAccountIds arch.followings ∨ id ∈ collectAccountIds arch.followers ∨
          id ∈ dmIds ∨ id ∈ gIds) ∧
        regLookup users id = none) := by
  have hcoll : collected =
      pySetOfList
        (pySetOfList (collectAccountIds arch.followings ++ dmIds ++ gIds) ++
          pySetOfList ((collectAccountIds arch.followers).filter (fun x =>
            !((pySetOfList (collectAccountIds arch.followings ++ dmIds ++ gIds)).contains
              x)))) := by
    unfold collectedUserIds at hc
    rw [hdm] at hc
    dsimp only at hc
    rw [hg] at hc
    dsimp only at hc
    exact (Except.ok.inj hc).symm
  have hreg : (!(regContains users id)) = true ↔ regLookup users id = none := by
    unfold regContains
    cases regLookup users id <;> simp
  subst hcoll
  unfold lookupFiltered
  rw [List.mem_filter, hreg]
  constructor
  · rintro ⟨hmem, hnone⟩
    refine ⟨?_, hnone⟩
    rw [pySetOfList_mem, List.mem_append, pySetOfList_mem, pySetOfList_mem] at hmem
    rcases hmem with hmem | hmem
    · rw [List.mem_append, List.mem_append] at hmem
      tauto
    · rw [List.mem_filter] at hmem
      tauto
  · rintro ⟨hsrc, hnone⟩
    refine ⟨?_, hnone⟩
    rw [pySetOfList_mem, List.mem_append, pySetOfList_mem, pySetOfList_mem]
    by_cases hwf : id ∈ collectAccountIds arch.followings ++ dmIds ++ gIds
    · exact Or.inl hwf
    · refine Or.inr ?_
      rw [List.mem_filter]
      have hfol : id ∈ collectAccountIds arch.followers := by
        rw [List.mem_append, List.mem_append] at hwf
        tauto
      refine ⟨hfol, ?_⟩
      rw [Bool.not_eq_true']
      rw [← Bool.not_eq_true]
      intro hcon
      exact hwf ((pySetOfList_mem _ _).mp ((contains_iff_mem _ _).mp hcon))

def c2GroupMsg : ConvMsg :=
  { messageCreate := some { senderId := some "11", text := some "x", createdAt := some "t" } }

def c2Arch : Archive :=
  { followings := [some (some "7"), some (some "8")]
    followers := [some (some "9"), some (some "7")]
    dms := [some { conversationId := some "8-10" }]
    groupDms := [some { conversationId := some "g", messages := some [c2GroupMsg] }] }

/-- C2 witness: a concrete archive with overlapping sources and a registry
already knowing id 7; the id 9, present only among the followers and unknown
to the registry, is requested. -/
theorem C2_candidate_set_is_union_minus_known_witness :
    collectUserIdsFromDirectMessages c2Arch.dms = .ok ["8", "10"] ∧
    collectUserIdsFromGroupDirectMessages c2Arch.groupDms = .ok ["11"] ∧
    collectedUserIds c2Arch = .ok ["7", "8", "10", "11", "9"] ∧
    (("9" ∈ lookupFiltered [("7", "seven")] ["7", "8", "10", "11", "9"]) ↔
      (("9" ∈ collectAccountIds c2Arch.followings ∨
          "9" ∈ collectAccountIds c2Arch.followers ∨
          "9" ∈ ["8", "10"] ∨ "9" ∈ ["11"]) ∧
        regLookup [("7", "seven")] "9" = none)) :=
  ⟨by rfl, by rfl, by rfl,
    C2_candidate_set_is_union_minus_known c2Arch [("7", "seven")] ["8", "10"] ["11"]
      ["7", "8", "10", "11", "9"] (by rfl) (by rfl) (by rfl) "9"⟩

/-! C5 helper lemmas. -/

theorem setAdd_nodup (l : List String) (x : String) (h : l.Nodup) : (setAdd l x).Nodup := by
  unfold setAdd
  split
  · exact h
  · next hcon =>
    have hx : x ∉ l := fun hm => hcon ((contains_iff_mem l x).mpr hm)
    rw [List.nodup_append]
    refine ⟨h, List.nodup_singleton x, ?_⟩
    intro a ha hb
    rw [List.mem_singleton] at hb
    subst hb
    exact hx ha

theorem foldl_setAdd_nodup (l : List String) (acc : List String) (h : acc.Nodup) :
    (l.foldl setAdd acc).Nodup := by
  induction l generalizing acc with
  | nil => exact h
  | cons y ys ih => exact ih (setAdd acc y) (setAdd_nodup acc y h)

/-- The contribution of one event to the participant set, as the claim words
it: a messageCreate contributes its sender id, a joinConversation its
initiating user and the participant snapshot, a participantsJoin its
initiating user and the added users, dispatched in the if/elif order of the
source. -/
def msgContributes (msg : ConvMsg) (x : String) : Bool :=
  match msg.messageCreate with
  | some mc => mc.senderId = some x
  | none =>
    match msg.joinConversation with
    | some jc => x = jc.initiatingUserId || jc.participantsSnapshot.contains x
    | none =>
      match msg.participantsJoin with
      | some pj => x = pj.initiatingUserId || pj.userIds.contains x
      | none => false

/-- The claim-side description of which ids a conversation contributes. -/
def convContributes (conv : ConvRecord) (x : String) : Prop :=
  match conv with
  | some c =>
    c.conversationId.isSome = true ∧
      ∃ msgs, c.messages = some msgs ∧ ∃ m ∈ msgs, msgContributes m x = true
  | none => False

theorem groupIdStep_ok_mem (acc out : List String) (msg : ConvMsg) (x : String)
    (h : groupIdStep acc msg = .ok out) :
    (x ∈ out ↔ x ∈ acc ∨ msgContributes msg x = true) ∧ (acc.Nodup → out.Nodup) := by
  unfold groupIdStep at h
  cases h1 : msg.messageCreate with
  | some mc =>
    rw [h1] at h
    dsimp only at h
    cases h2 : mc.senderId with
    | some s =>
      rw [h2] at h
      dsimp only at h
      have hout : setAdd acc s = out := Except.ok.inj h
      subst hout
      refine ⟨?_, setAdd_nodup acc s⟩
      rw [setAdd_mem]
      simp [msgContributes, h1, h2, eq_comm]
    | none =>
      rw [h2] at h
      dsimp only at h
      exact absurd h (by intro hcon; cases hcon)
  | none =>
    rw [h1] at h
    dsimp only at h
    cases h3 : msg.joinConversation with
    | some jc =>
      rw [h3] at h
      dsimp only at h
      have hout : jc.participantsSnapshot.foldl setAdd (setAdd acc jc.initiatingUserId) = out :=
        Except.ok.inj h
      subst hout
      refine ⟨?_, fun hnd => foldl_setAdd_nodup _ _ (setAdd_nodup _ _ hnd)⟩
      rw [foldl_setAdd_mem, setAdd_mem]
      simp [msgContributes, h1, h3, contains_iff_mem]
      tauto
    | none =>
      rw [h3] at h
      dsimp only at h
      cases h4 : msg.participantsJoin with
      | some pj =>
        rw [h4] at h
        dsimp only at h
        have hout : pj.userIds.foldl setAdd (setAdd acc pj.initiatingUserId) = out :=
          Except.ok.inj h
        subst hout
        refine ⟨?_, fun hnd => foldl_setAdd_nodup _ _ (setAdd_nodup _ _ hnd)⟩
        rw [foldl_setAdd_mem, setAdd_mem]
        simp [msgContributes, h1, h3, h4, contains_iff_mem]
        tauto
      | none =>
        rw [h4] at h
        dsimp only at h
        have hout : acc = out := Except.ok.inj h
        subst hout
        refine ⟨?_, fun hnd => hnd⟩
        simp [msgContributes, h1, h3, h4]

theorem groupIdFold_mem (msgs : List ConvMsg) (acc out : List String) (x : String)
    (h : List.foldlM groupIdStep acc msgs = .ok out) :
    (x ∈ out ↔ x ∈ acc ∨ ∃ m ∈ msgs, msgContributes m x = true) ∧
      (acc.Nodup → out.Nodup) := by
  induction msgs generalizing acc with
  | nil =>
    have hout : acc = out := Except.ok.inj h
    subst hout
    simp
  | cons m ms ih =>
    rw [List.foldlM_cons] at h
    cases hstep : groupIdStep acc m with
    | error e =>
      rw [hstep] at h
      have hco : (Except.error e : Except PyErr (List String)) = .ok out := h
      cases hco
    | ok mid =>
      rw [hstep] at h
      have h' : List.foldlM groupIdStep mid ms = .ok out := h
      obtain ⟨hm1, hn1⟩ := groupIdStep_ok_mem acc mid m x hstep
      obtain ⟨hm2, hn2⟩ := ih mid h'
      refine ⟨?_, fun hnd => hn2 (hn1 hnd)⟩
      rw [hm2, hm1]
      constructor
      · rintro ((hx | hc) | ⟨m2, hmem, hc⟩)
        · exact Or.inl hx
        · exact Or.inr ⟨m, List.mem_cons_self m ms, hc⟩
        · exact Or.inr ⟨m2, List.mem_cons_of_mem m hmem, hc⟩
      · rintro (hx | ⟨m2, hmem, hc⟩)
        · exact Or.inl (Or.inl hx)
        · rcases List.mem_cons.mp hmem with rfl | hmem2
          · exact Or.inl (Or.inr hc)
          · exact Or.inr ⟨m2, hmem2, hc⟩

theorem findGroupParticipantIds_spec (conv : ConvRecord) (pids : List String)
    (h : findGroupParticipantIds conv = .ok pids) :
    (∀ x, x ∈ pids ↔ convContributes conv x) ∧ pids.Nodup := by
  unfold findGroupParticipantIds at h
  cases conv with
  | none =>
    have hout : ([] : List String) = pids := Except.ok.inj h
    subst hout
    simp [convContributes]
  | some c =>
    dsimp only at h
    by_cases hcid : c.conversationId.isSome
    · rw [if_pos hcid] at h
      cases hm : c.messages with
      | none =>
        rw [hm] at h
        dsimp only at h
        have hout : ([] : List String) = pids := Except.ok.inj h
        subst hout
        constructor
        · intro x
          simp only [List.not_mem_nil, false_iff, convContributes]
          rintro ⟨-, msgs, hmsgs, -⟩
          rw [hm] at hmsgs
          cases hmsgs
        · exact List.nodup_nil
      | some msgs =>
        rw [hm] at h
        dsimp only at h
        refine ⟨?_, (groupIdFold_mem msgs [] pids "" h).2 List.nodup_nil⟩
        intro x
        rw [(groupIdFold_mem msgs [] pids x h).1]
        simp only [List.not_mem_nil, false_or, convContributes]
        constructor
        · rintro ⟨m, hmm, hc⟩
          exact ⟨hcid, msgs, hm, m, hmm, hc⟩
        · rintro ⟨-, msgs2, hmsgs2, m, hmm, hc⟩
          rw [hm] at hmsgs2
          obtain rfl : msgs = msgs2 := Option.some.inj hmsgs2
          exact ⟨m, hmm, hc⟩
    · rw [if_neg hcid] at h
      have hout : ([] : List String) = pids := Except.ok.inj h
      subst hout
      constructor
      · intro x
        simp only [List.not_mem_nil, false_iff, convContributes]
        rintro ⟨hc', -⟩
        exact hcid hc'
      · exact List.nodup_nil

/-! C5. -/

def c5Msg1 : ConvMsg :=
  { messageCreate := some { senderId := some "1", text := some "hi", createdAt := some "t1" } }

def c5Msg2 : ConvMsg :=
  { messageCreate := some { senderId := some "2", text := some "yo", createdAt := some "t2" } }

def c5Msg3 : ConvMsg :=
  { participantsJoin := some { initiatingUserId := "3", userIds := ["4", "1"] } }

def c5Conv : ConvRecord :=
  some { conversationId := some "g1", messages := some [c5Msg1, c5Msg2, c5Msg3] }

/-- C5 counterexample: the participant ids are held in a Python set and the
resolving loop iterates that set, so the resolved list follows the hash-driven
set enumeration, not first-seen order.  Reversal is a legitimate set
enumeration (a permutation of the first-seen list), and under it the
conversation whose events first see ids 1, 2, 3, 4 in that order resolves its
participants in the order 4, 3, 2, 1, refuting first-seen order
preservation. -/
theorem C5_counterexample_participant_order :
    findGroupParticipantIds c5Conv = Except.ok ["1", "2", "3", "4"] ∧
    List.Perm (List.reverse ["1", "2", "3", "4"]) ["1", "2", "3", "4"] ∧
    groupParticipants List.reverse [] c5Conv =
      Except.ok [USER_URL_TEMPLATE "4", USER_URL_TEMPLATE "3",
        USER_URL_TEMPLATE "2", USER_URL_TEMPLATE "1"] ∧
    groupParticipants List.reverse [] c5Conv ≠
      Except.ok (List.map (resolveMsgHandle []) ["1", "2", "3", "4"]) :=
  ⟨rfl, List.reverse_perm _, rfl, fun h => absurd (Except.ok.inj h) (by decide)⟩

/-- C5 amended: for every group conversation whose event fold succeeds, the
folded id list pids is duplicate-free and holds exactly the ids the three
event kinds contribute (messageCreate sender ids, joinConversation initiating
id plus snapshot, participantsJoin initiating id plus added users); the
resolved participant list is built only after that fold completes, as the
registry resolution (with the profile-url fallback) mapped over the ambient
set enumeration of pids; for any enumeration that permutes its input, the
result is a permutation of the first-seen-order resolution — but not
necessarily equal to it. -/
theorem C5_amended_group_participants (enum : List String → List String)
    (henum : ∀ l : List String, List.Perm (enum l) l)
    (users : Registry) (conv : ConvRecord) (pids : List String)
    (hp : findGroupParticipantIds conv = .ok pids) :
    groupParticipants enum users conv =
        .ok ((enum pids).map (resolveMsgHandle users)) ∧
      pids.Nodup ∧
      (∀ x, x ∈ pids ↔ convContributes conv x) ∧
      List.Perm ((enum pids).map (resolveMsgHandle users))
        (pids.map (resolveMsgHandle users)) := by
  obtain ⟨hmem, hnd⟩ := findGroupParticipantIds_spec conv pids hp
  refine ⟨?_, hnd, hmem, (henum pids).map (resolveMsgHandle users)⟩
  unfold groupParticipants
  rw [hp]

/-- C5 witness: the identity enumeration on the concrete conversation. -/
theorem C5_amended_group_participants_witness :
    findGroupParticipantIds c5Conv = Except.ok ["1", "2", "3", "4"] ∧
    (groupParticipants (fun l => l) [] c5Conv =
        .ok (((fun (l : List String) => l) ["1", "2", "3", "4"]).map (resolveMsgHandle [])) ∧
      List.Nodup ["1", "2", "3", "4"] ∧
      (∀ x, x ∈ ["1", "2", "3", "4"] ↔ convContributes c5Conv x) ∧
      List.Perm (((fun (l : List String) => l) ["1", "2", "3", "4"]).map (resolveMsgHandle []))
        (List.map (resolveMsgHandle []) ["1", "2", "3", "4"])) :=
  ⟨rfl, C5_amended_group_participants (fun l => l) (fun l => List.Perm.refl l) [] c5Conv
    ["1", "2", "3", "4"] rfl⟩

end TwitterParser
